import Mathlib

/-!
Verification development for the snapd service-wrapper core
(`wrappers/services.go`): the service unit lifecycle orchestrator
(AddSnapServices / StartServices / StopServices / RemoveSnapServices),
the unit renderer (genServiceFile) and the schedule-to-calendar-event
translator (makeAbbrevWeekdays / generateOnCalendarSchedules).

The Go code is shallowly embedded:

* machine integers stay Nat/Int (no overflow is relevant at the sizes
  involved: weekday numbers, minutes-of-day, week positions);
* the external service manager (systemd), the filesystem and the random
  source are injected: an `Oracle` decides, per call, whether each
  facade/filesystem call succeeds, fails, or (for Stop) fails with a
  timeout, and a `SysSt` record carries the set of unit files on disk,
  the set of enabled units, the ordered trace of facade calls and an
  observer-notification counter;
* fallible operations return `Option`/`Except`; the one genuinely
  non-terminating loop in the source (`makeAbbrevWeekdays`) is embedded
  with explicit fuel so that its divergence is itself provable.

Types and functions from the `snap`, `systemd` and `timeutil` packages
that are referenced but are not part of the given source are modelled
from the spec and carry a `Modelled from the spec:` doc comment.
-/

namespace SnapdWrappers

/-- The characters after the last `/`, accumulating the current
component. -/
def lastComponent : List Char → List Char → List Char
  | [], acc => acc
  | c :: rest, acc =>
    if c = '/' then lastComponent rest [] else lastComponent rest (acc ++ [c])

/-- Last path component, as `filepath.Base` is used on unit file
paths: the substring after the final `/` (unit file paths never end
in a slash). -/
def filepathBase (p : String) : String :=
  ⟨lastComponent p.data []⟩

/-! ## Calendar translator data model

`Modelled from the spec:` the `timeutil` schedule types are not part of
the given source.  Per the spec's data model, a schedule is an ordered
sequence of chunks; each chunk has weekday spans (unconstrained
"every week", "last week of month", or an explicit Nth-to-Mth
week-of-month range with a start/end weekday pair) and clock spans
(fixed instant or "spread" window).  Weekdays are Go `time.Weekday`
numbers (0 = Sunday .. 6 = Saturday); week positions use the sentinel
`everyWeek = 0`, explicit positions 1..4, and `lastWeek = 5`.
Durations are modelled in minute resolution (the resolution of a clock
value). -/

/-- Modelled from the spec: one endpoint of a weekday span — a weekday
(0 = Sunday .. 6 = Saturday) together with a week-of-month position. -/
structure Week where
  weekday : Nat
  pos : Nat
deriving DecidableEq

/-- Modelled from the spec: sentinel position for an unconstrained
("every week") span. -/
def everyWeek : Nat := 0

/-- Modelled from the spec: sentinel position for a
"last week of the month" span. -/
def lastWeek : Nat := 5

/-- Modelled from the spec: a weekday range. -/
structure WeekSpan where
  start : Week
  endw : Week
deriving DecidableEq

/-- Modelled from the spec: a time of day (hour may be 24, meaning the
other end of the day). -/
structure Clock where
  hour : Nat
  minute : Nat
deriving DecidableEq

/-- Modelled from the spec: a time-of-day range, either a fixed instant
(start = end, not spread) or a window; `spread` means the actual run
time is sampled at random inside the window. -/
structure ClockSpan where
  start : Clock
  endc : Clock
  spread : Bool
deriving DecidableEq

/-- Modelled from the spec: one schedule chunk. -/
structure Sched where
  weekSpans : List WeekSpan
  clockSpans : List ClockSpan
deriving DecidableEq

/-- Modelled from the spec: minutes since midnight of a clock value. -/
def Clock.minutes (c : Clock) : Nat := c.hour * 60 + c.minute

/-- Modelled from the spec: `Clock.Sub` — signed difference between two
clock values, in minutes. -/
def clockSub (a b : Clock) : Int := (a.minutes : Int) - (b.minutes : Int)

/-- Modelled from the spec: `Clock.Add` — adds a (minute) duration to a
clock value, wrapping past midnight. -/
def clockAdd (c : Clock) (m : Nat) : Clock :=
  let t := (c.minutes + m) % (24 * 60)
  ⟨t / 60, t % 60⟩

/-- Two-digit decimal rendering used by clock formatting. -/
def pad2 (n : Nat) : String :=
  if n < 10 then "0" ++ toString n else toString n

/-- Modelled from the spec: `Clock.String` — the literal `HH:MM:SS`
rendering of a clock value (seconds always zero). -/
def Clock.render (c : Clock) : String :=
  pad2 c.hour ++ ":" ++ pad2 c.minute ++ ":00"

/-- Modelled from the spec: `ClockSpan.ClockSpans` — the expansion of a
clock span used by the translator; the spec defines no subdivision, so
a span expands to itself. -/
def ClockSpan.expand (s : ClockSpan) : List ClockSpan := [s]

/-- Go `time.Weekday.String()`: the full English weekday name,
Sunday = 0. -/
def weekdayName : Nat → String
  | 0 => "Sunday"
  | 1 => "Monday"
  | 2 => "Tuesday"
  | 3 => "Wednesday"
  | 4 => "Thursday"
  | 5 => "Friday"
  | 6 => "Saturday"
  | _ => "?"

/-- The loop body of `makeAbbrevWeekdays`:

    for w := start; w%7 != (end + 1); w++ {
        out = append(out, time.Weekday(w % 7).String()[0:3])
    }

embedded with explicit fuel; `none` means the loop has not exited
within `fuel` iterations.  Note the loop guard compares `w % 7` with
`end + 1` (without reducing `end + 1` modulo 7), exactly as the source
does. -/
def makeAbbrevLoop : Nat → Nat → Nat → List String → Option (List String)
  | 0, _, _, _ => none
  | fuel + 1, w, endW, out =>
    if w % 7 = endW + 1 then some out
    else makeAbbrevLoop fuel (w + 1) endW (out ++ [(weekdayName (w % 7)).take 3])

/-- `makeAbbrevWeekdays(start, end)`.  Fuel 14 is more than any
terminating run of the source loop uses (a terminating run appends at
most 6 abbreviations). -/
def makeAbbrevWeekdays (start endW : Nat) : Option (List String) :=
  makeAbbrevLoop 14 start endW []

/-- Abnormal outcomes of the calendar translator: a Go `panic` (from
`rand.Int63n` with a non-positive bound) or non-termination of
`makeAbbrevWeekdays`. -/
inductive CalFault
  | panicked
  | diverged
deriving DecidableEq

/-- Go `strings.Join(elems, sep)`. -/
def goJoin (sep : String) : List String → String
  | [] => ""
  | [a] => a
  | a :: rest => a ++ sep ++ goJoin sep rest

/-- The `days` list built from the week spans of one chunk
(`generateOnCalendarSchedules`, first inner loop). -/
def genDays : List WeekSpan → Except CalFault (List String)
  | [] => .ok []
  | week :: rest =>
    match makeAbbrevWeekdays week.start.weekday week.endw.weekday with
    | none => .error .diverged
    | some l =>
      let abb := goJoin "," l
      let day :=
        if week.start.pos = everyWeek then
          abb ++ " *-*-*"
        else if week.start.pos = lastWeek then
          abb ++ " *-*~7/1"
        else
          let startDay := (week.start.pos - 1) * 7 + 1
          let endDay := week.endw.pos * 7
          if week.start ≠ week.endw then
            "*-*-" ++ toString startDay ++ ".." ++ toString endDay ++ "/1"
          else
            abb ++ " *-*-" ++ toString startDay ++ ".." ++ toString endDay ++ "/1"
      match genDays rest with
      | .error f => .error f
      | .ok days => .ok (day :: days)

/-- The injected random source: `rng k` is the raw value drawn by the
`k`-th call to `rand.Int63n`; the source reduces it modulo the
requested bound. -/
def Rng : Type := Nat → Nat

/-- The `when` value computed for one (expanded) clock span in
`generateOnCalendarSchedules`: the span start, plus — for a spread
span — a random offset into the window, whose length is first reduced
by 5 minutes when it exceeds 5 minutes.  `rand.Int63n` panics when its
bound is not positive, which here happens exactly for a zero-length
spread window.  Returns the chosen clock value and the number of
random draws consumed. -/
def spanWhen (rng : Rng) (k : Nat) (span : ClockSpan) : Except CalFault (Clock × Nat) :=
  if span.spread then
    let length0 := clockSub span.endc span.start
    let length1 := if length0 < 0 then -length0 else length0
    let length := if length1 > 5 then length1 - 5 else length1
    if length ≤ 0 then .error .panicked
    else .ok (clockAdd span.start (rng k % length.toNat), k + 1)
  else .ok (span.start, k)

/-- The time string emitted for one expanded clock span: the chosen
`when` value after the hour-24 fold (`24:MM` means the other end of
the day and is adjusted to the 0–23 hour range). -/
def spanTime (rng : Rng) (k : Nat) (span : ClockSpan) : Except CalFault (String × Nat) :=
  match spanWhen rng k span with
  | .error f => .error f
  | .ok (when0, k1) =>
    let whenc := if when0.hour = 24 then { when0 with hour := when0.hour - 24 } else when0
    .ok (whenc.render, k1)

/-- The inner loop over the expanded spans of one clock span. -/
def genExpandedTimes (rng : Rng) (k : Nat) : List ClockSpan → Except CalFault (List String × Nat)
  | [] => .ok ([], k)
  | span :: rest =>
    match spanTime rng k span with
    | .error f => .error f
    | .ok (t, k1) =>
      match genExpandedTimes rng k1 rest with
      | .error f => .error f
      | .ok (ts, k2) => .ok (t :: ts, k2)

/-- The `startTimes` list built from the clock spans of one chunk
(`generateOnCalendarSchedules`, second inner loop), including the
hour-24 fold.  Threads the random-draw index. -/
def genStartTimes (rng : Rng) (k : Nat) : List ClockSpan → Except CalFault (List String × Nat)
  | [] => .ok ([], k)
  | clocks :: rest =>
    match genExpandedTimes rng k clocks.expand with
    | .error f => .error f
    | .ok (ts, k1) =>
      match genStartTimes rng k1 rest with
      | .error f => .error f
      | .ok (ts', k2) => .ok (ts ++ ts', k2)

/-- The day-major/time-minor cross product of `days × startTimes`. -/
def crossEvents : List String → List String → List String
  | [], _ => []
  | day :: ds, startTimes =>
    startTimes.map (fun t => day ++ " " ++ t) ++ crossEvents ds startTimes

/-- One chunk of `generateOnCalendarSchedules`: build the `days` list
(defaulting to `*-*-*` when there are no week spans), the `startTimes`
list, and append their cross product. -/
def genChunk (rng : Rng) (k : Nat) (sched : Sched) : Except CalFault (List String × Nat) :=
  match genDays sched.weekSpans with
  | .error f => .error f
  | .ok days0 =>
    let days := if days0.isEmpty then ["*-*-*"] else days0
    match genStartTimes rng k sched.clockSpans with
    | .error f => .error f
    | .ok (startTimes, k1) => .ok (crossEvents days startTimes, k1)

/-- The chunk loop of `generateOnCalendarSchedules`, threading the
random-draw index. -/
def genChunks (rng : Rng) (k : Nat) : List Sched → Except CalFault (List String)
  | [] => .ok []
  | sched :: rest =>
    match genChunk rng k sched with
    | .error f => .error f
    | .ok (evs, k1) =>
      match genChunks rng k1 rest with
      | .error f => .error f
      | .ok evs' => .ok (evs ++ evs')

/-- `generateOnCalendarSchedules(schedule)`: converts a schedule into
systemd `OnCalendar` event strings, chunk by chunk. -/
def generateOnCalendarSchedules (rng : Rng) (schedule : List Sched) : Except CalFault (List String) :=
  genChunks rng 0 schedule

/-! ## Application descriptors

`Modelled from the spec:` the `snap.AppInfo`/`snap.SocketInfo`/timer
descriptor types live in the `snap` package, outside the given source.
Fields carry exactly the data the service wrapper reads from them;
derived strings (launcher command lines, file paths, the mount unit
name) are modelled as fields because their derivation is not part of
this source.  `valid` models the outcome of `snap.ValidateApp`
(structural validation), `parseOk` the outcome of
`timeutil.ParseSchedule` on the timer's raw schedule text. -/

/-- Modelled from the spec: a socket descriptor (`snap.SocketInfo`);
`file` is the socket unit file path (`socket.File()`). -/
structure SocketInfo where
  sname : String
  file : String
deriving DecidableEq

/-- Modelled from the spec: a timer descriptor; `file` is the timer
unit file path (`app.Timer.File()`), `parseOk` whether
`timeutil.ParseSchedule` accepts its raw schedule text. -/
structure TimerInfo where
  file : String
  parseOk : Bool
deriving DecidableEq

/-- Modelled from the spec: an application descriptor
(`snap.AppInfo`) with the fields the service wrapper reads. -/
structure AppInfo where
  name : String
  snapInstanceName : String
  /-- daemon kind; empty string means "not a service" -/
  daemon : String
  serviceFilePath : String
  launcherCommand : String
  launcherStopCommand : String
  launcherReloadCommand : String
  launcherPostStopCommand : String
  stopCommand : String
  reloadCommand : String
  postStopCommand : String
  restartCond : String
  restartDelaySec : Nat
  stopTimeoutSec : Nat
  startTimeoutSec : Nat
  watchdogSec : Nat
  busName : String
  /-- `StopMode.KillAll()` -/
  killAll : Bool
  /-- `StopMode.KillSignal()` -/
  killSignal : String
  before : List String
  after : List String
  sockets : List SocketInfo
  timer : Option TimerInfo
  dataDir : String
  /-- `filepath.Base(systemd.MountUnitPath(app.Snap.MountDir()))` -/
  mountUnit : String
  /-- Modelled from the spec: outcome of `snap.ValidateApp` -/
  valid : Bool
deriving DecidableEq

/-- `app.IsService()`: an application with a non-empty daemon kind. -/
def AppInfo.isService (a : AppInfo) : Bool := a.daemon ≠ ""

/-- `app.ServiceName()`: the base name of the service unit file. -/
def serviceName (a : AppInfo) : String := filepathBase a.serviceFilePath

/-- Modelled from the spec: the snap-level data the wrapper reads — the
instance name and the applications in (deterministic per-run)
iteration order. -/
structure SnapInfo where
  instanceName : String
  apps : List AppInfo
deriving DecidableEq

/-! ## Unit renderer (`genServiceFile`)

The service unit template is rendered line by line; the byte content of
the unit file is the newline-join of these lines.  `{{- ...}}` trimming
in the Go template corresponds exactly to a conditional line being
present or absent. -/

/-- Modelled from the spec: `systemd.ServicesTarget` — the boot target
plain services are wanted by. -/
def servicesTarget : String := "multi-user.target"

/-- Modelled from the spec: `systemd.PrerequisiteTarget`. -/
def prerequisiteTarget : String := "network-online.target"

/-- Modelled from the spec: `timeout.DefaultTimeout` in seconds,
substituted when an application's stop timeout is unset. -/
def defaultTimeoutSec : Nat := 30

/-- Modelled from the spec: `snap.RestartOnFailure.String()` — the
default restart condition. -/
def restartOnFailure : String := "on-failure"

/-- `genServiceNames`: resolves application names to service unit
names via the snap's app table, silently skipping unknown names. -/
def genServiceNames (apps : List AppInfo) (names : List String) : List String :=
  names.filterMap (fun n => (apps.find? (fun a => a.name = n)).map serviceName)

/-- The lines of the rendered service unit (`genServiceFile`) before
the final conditional `[Install]` section, in template order.
Conditional template sections become conditionally present lines. -/
def serviceMainLines (snapApps : List AppInfo) (app : AppInfo) : List String :=
  let restartCond0 := if app.restartCond = "" then restartOnFailure else app.restartCond
  let restartCond := if app.daemon = "oneshot" then "no" else restartCond0
  let remain := if app.daemon = "oneshot" ∧ app.stopCommand ≠ "" then "yes" else ""
  let killMode := if app.killAll then "" else "process"
  let beforeUnits := genServiceNames snapApps app.before
  let afterUnits := genServiceNames snapApps app.after
  let stopTimeout := if app.stopTimeoutSec = 0 then defaultTimeoutSec else app.stopTimeoutSec
  ["[Unit]",
   "# Auto-generated, DO NOT EDIT",
   "Description=" ++ ("Service for snap application " ++ app.snapInstanceName ++ "." ++ app.name),
   "Requires=" ++ app.mountUnit,
   "Wants=" ++ prerequisiteTarget,
   "After=" ++ (app.mountUnit ++ " " ++ prerequisiteTarget
                ++ (if afterUnits.isEmpty then "" else " " ++ goJoin " " afterUnits))]
  ++ (if beforeUnits.isEmpty then [] else ["Before=" ++ goJoin " " beforeUnits])
  ++ ["X-Snappy=yes",
      "",
      "[Service]",
      "ExecStart=" ++ app.launcherCommand,
      "SyslogIdentifier=" ++ (app.snapInstanceName ++ "." ++ app.name),
      "Restart=" ++ restartCond]
  ++ (if app.restartDelaySec = 0 then [] else ["RestartSec=" ++ toString app.restartDelaySec])
  ++ ["WorkingDirectory=" ++ app.dataDir]
  ++ (if app.stopCommand = "" then [] else ["ExecStop=" ++ app.launcherStopCommand])
  ++ (if app.reloadCommand = "" then [] else ["ExecReload=" ++ app.launcherReloadCommand])
  ++ (if app.postStopCommand = "" then [] else ["ExecStopPost=" ++ app.launcherPostStopCommand])
  ++ (if stopTimeout = 0 then [] else ["TimeoutStopSec=" ++ toString stopTimeout])
  ++ (if app.startTimeoutSec = 0 then [] else ["TimeoutStartSec=" ++ toString app.startTimeoutSec])
  ++ ["Type=" ++ app.daemon]
  ++ (if remain = "" then [] else ["RemainAfterExit=" ++ remain])
  ++ (if app.busName = "" then [] else ["BusName=" ++ app.busName])
  ++ (if app.watchdogSec = 0 then [] else ["WatchdogSec=" ++ toString app.watchdogSec])
  ++ (if killMode = "" then [] else ["KillMode=" ++ killMode])
  ++ (if app.killSignal = "" then [] else ["KillSignal=" ++ app.killSignal])

/-- The lines of the rendered service unit (`genServiceFile`), in
template order.  Note the trailing `[Install]` section is guarded by
`{{- if not .App.Sockets}}` — on the socket list only. -/
def genServiceFileLines (snapApps : List AppInfo) (app : AppInfo) : List String :=
  serviceMainLines snapApps app
  ++ (if app.sockets.isEmpty then ["", "[Install]", "WantedBy=" ++ servicesTarget] else [])

/-- The rendered service unit text: newline-join of the lines, with a
trailing newline (the template ends in one). -/
def genServiceFile (snapApps : List AppInfo) (app : AppInfo) : String :=
  goJoin "\n" (genServiceFileLines snapApps app) ++ "\n"

/-! ## Lifecycle orchestration model

The external service manager and the filesystem are injected.  Each
facade/filesystem call is one `Op`; an `Oracle` decides, per call
index, whether the call succeeds (`ok`), fails (`fail`) or — relevant
only for `Stop` — fails with the distinguished timeout error
(`timeoutFail`).  `SysSt` is the observable world: unit files on disk,
enabled units, the ordered call trace, the observer-notification
count, and a counter of daemon-reloads issued from the rollback path.

`daemonReload` and `rollbackReload` are the same facade call
(`sysd.DaemonReload()`); they are tagged by call site (the normal
path vs. the compensating path of `AddSnapServices`) so that
hypotheses and conclusions can talk about each site separately. -/

/-- One external call made by the orchestrator. -/
inductive Op
  | writeFile (p : String)
  | removeFile (p : String)
  | enableU (u : String)
  | disableU (u : String)
  | startU (u : String)
  | stopU (u : String)
  | isEnabledU (u : String)
  | killU (u : String) (sig : String)
  | daemonReload
  | rollbackReload
deriving DecidableEq

/-- Result of one external call, decided by the oracle.
`timeoutFail` models the distinguished `systemd.IsTimeout` error
kind. -/
inductive Res
  | ok
  | fail
  | timeoutFail
deriving DecidableEq

/-- The success/failure environment: result of the `k`-th external
call, given the call made. -/
def Oracle : Type := Nat → Op → Res

/-- Observable system state. -/
structure SysSt where
  fs : List String
  enabledUnits : List String
  trace : List (Op × Res)
  notices : Nat
  rollbackReloads : Nat
  k : Nat
deriving DecidableEq

/-- State effect of a completed call. -/
def applyOp (st : SysSt) (op : Op) (r : Res) : SysSt :=
  match op, r with
  | .writeFile p, .ok =>
    { st with fs := if st.fs.contains p then st.fs else p :: st.fs }
  | .removeFile p, .ok => { st with fs := st.fs.filter (fun q => q ≠ p) }
  | .enableU u, .ok =>
    { st with enabledUnits :=
        if st.enabledUnits.contains u then st.enabledUnits else u :: st.enabledUnits }
  | .disableU u, .ok => { st with enabledUnits := st.enabledUnits.filter (fun v => v ≠ u) }
  | .rollbackReload, _ => { st with rollbackReloads := st.rollbackReloads + 1 }
  | _, _ => st

/-- Make one external call: consult the oracle, apply the state
effect, record the call in the trace. -/
def callOp (o : Oracle) (st : SysSt) (op : Op) : SysSt × Res :=
  let r := o st.k op
  ({ applyOp st op r with
      trace := st.trace ++ [(op, r)]
      k := st.k + 1 }, r)

/-- `inter.Notify(...)`: best-effort observer diagnostic. -/
def notifyObs (st : SysSt) : SysSt := { st with notices := st.notices + 1 }

/-- The error taxonomy of the lifecycle operations.  Which of these a
call can return is exactly what the error-handling claims are
about. -/
inductive SvcErr
  | validateFail (app : String)
  | parseFail (app : String)
  | writeFail (p : String)
  | removeFail (p : String)
  | enableFail (u : String)
  | disableFail (u : String)
  | startFail (u : String)
  | stopFail (u : String)
  | isEnabledFail (u : String)
  | reloadFail
deriving DecidableEq

/-- Disable every unit in the list, in order; a failure is reported to
the observer and swallowed (the shape of every compensating disable
loop in the source). -/
def disableAll (o : Oracle) (st : SysSt) : List String → SysSt
  | [] => st
  | u :: rest =>
    let (st1, r) := callOp o st (.disableU u)
    disableAll o (if r = .ok then st1 else notifyObs st1) rest

/-- Remove every file in the list, in order; a failure is reported to
the observer and swallowed (the compensating `os.Remove` loop of
`AddSnapServices`). -/
def removeAllFiles (o : Oracle) (st : SysSt) : List String → SysSt
  | [] => st
  | p :: rest =>
    let (st1, r) := callOp o st (.removeFile p)
    removeAllFiles o (if r = .ok then st1 else notifyObs st1) rest

/-! ### AddSnapServices -/

/-- The per-call rollback ledger of `AddSnapServices` together with
the current system state: files written and units enabled so far, in
order. -/
structure AddAcc where
  st : SysSt
  written : List String
  enabled : List String
deriving DecidableEq

/-- Write the socket unit files of one application (iterating the
map produced by `generateSnapSocketFiles`), recording each written
path; a write failure aborts with that error. -/
def writeSocketFiles (o : Oracle) (acc : AddAcc) : List SocketInfo → AddAcc × Option SvcErr
  | [] => (acc, none)
  | sock :: rest =>
    let (st1, r) := callOp o acc.st (.writeFile sock.file)
    if r = .ok then
      writeSocketFiles o ⟨st1, acc.written ++ [sock.file], acc.enabled⟩ rest
    else (⟨st1, acc.written, acc.enabled⟩, some (.writeFail sock.file))

/-- The body of the application loop of `AddSnapServices` for one
application: render+write the service unit, the socket units and the
timer unit (recording each in the write ledger), then — only for an
application with neither sockets nor timer and not in the
caller-supplied disabled set — enable the service unit (recording it
in the enable ledger). -/
def addServiceApp (o : Oracle) (disabledSvcs : List String) (acc : AddAcc) (app : AppInfo) :
    AddAcc × Option SvcErr :=
  if ¬app.isService then (acc, none)
  else if ¬app.valid then (acc, some (.validateFail app.name))   -- generateSnapServiceFile
  else
    let (st1, r1) := callOp o acc.st (.writeFile app.serviceFilePath)
    if r1 ≠ .ok then (⟨st1, acc.written, acc.enabled⟩, some (.writeFail app.serviceFilePath))
    else
      -- generateSnapSocketFiles re-validates the app; `app.valid` holds here
      match writeSocketFiles o ⟨st1, acc.written ++ [app.serviceFilePath], acc.enabled⟩ app.sockets with
      | (acc2, some e) => (acc2, some e)
      | (acc2, none) =>
        let timerStep : AddAcc × Option SvcErr :=
          match app.timer with
          | none => (acc2, none)
          | some t =>
            if ¬t.parseOk then (acc2, some (.parseFail app.name))  -- generateSnapTimerFile
            else
              let (st2, r2) := callOp o acc2.st (.writeFile t.file)
              if r2 ≠ .ok then (⟨st2, acc2.written, acc2.enabled⟩, some (.writeFail t.file))
              else (⟨st2, acc2.written ++ [t.file], acc2.enabled⟩, none)
        match timerStep with
        | (acc3, some e) => (acc3, some e)
        | (acc3, none) =>
          if app.timer.isSome ∨ ¬app.sockets.isEmpty then
            -- service is socket or timer activated, not during boot
            (acc3, none)
          else if disabledSvcs.contains app.name then (acc3, none)
          else
            let (st4, r4) := callOp o acc3.st (.enableU (serviceName app))
            if r4 ≠ .ok then (⟨st4, acc3.written, acc3.enabled⟩, some (.enableFail (serviceName app)))
            else (⟨st4, acc3.written, acc3.enabled ++ [serviceName app]⟩, none)

/-- The application loop of `AddSnapServices`: stops at the first
error, keeping the ledgers accumulated so far. -/
def addLoop (o : Oracle) (disabledSvcs : List String) : List AppInfo → AddAcc → AddAcc × Option SvcErr
  | [], acc => (acc, none)
  | app :: rest, acc =>
    match addServiceApp o disabledSvcs acc app with
    | (acc1, none) => addLoop o disabledSvcs rest acc1
    | (acc1, some e) => (acc1, some e)

/-- The non-compensating part of `AddSnapServices`: the application
loop followed — when at least one file was written — by the final
daemon-reload.  Returns the ledgers and the first error. -/
def addPrimary (o : Oracle) (s : SnapInfo) (disabledSvcs : List String) (st0 : SysSt) :
    AddAcc × Option SvcErr :=
  let (acc, e) := addLoop o disabledSvcs s.apps ⟨st0, [], []⟩
  match e with
  | some e => (acc, some e)
  | none =>
    if acc.written.isEmpty then (acc, none)
    else
      let (st1, r) := callOp o acc.st .daemonReload
      if r = .ok then (⟨st1, acc.written, acc.enabled⟩, none)
      else (⟨st1, acc.written, acc.enabled⟩, some .reloadFail)

/-- The deferred compensation of `AddSnapServices`, run only when an
error occurred: disable every unit in the enable ledger, remove every
file in the write ledger, and — only if at least one file had been
written — issue a daemon-reload; every compensating failure is
reported to the observer and swallowed. -/
def addRollback (o : Oracle) (acc : AddAcc) : SysSt :=
  let st1 := disableAll o acc.st acc.enabled
  let st2 := removeAllFiles o st1 acc.written
  if acc.written.isEmpty then st2
  else
    let (st3, r) := callOp o st2 .rollbackReload
    if r = .ok then st3 else notifyObs st3

/-- Result of `AddSnapServices`: final state, the two ledgers as they
stood at return, and the returned error. -/
structure AddResult where
  st : SysSt
  written : List String
  enabled : List String
  err : Option SvcErr
deriving DecidableEq

/-- `AddSnapServices(s, disabledSvcs, inter)`.  (The snapd-type early
branch delegates to `writeSnapdServicesOnCore`, which is not part of
this source; this model covers the general snap path.  The initial
loop over `disabledSvcs` only writes log messages and reads no
state.) -/
def addSnapServices (o : Oracle) (s : SnapInfo) (disabledSvcs : List String) (st0 : SysSt) :
    AddResult :=
  match addPrimary o s disabledSvcs st0 with
  | (acc, none) => ⟨acc.st, acc.written, acc.enabled, none⟩
  | (acc, some e) => ⟨addRollback o acc, acc.written, acc.enabled, some e⟩

/-! ### RemoveSnapServices -/

/-- The socket loop of `RemoveSnapServices` for one application:
disable each socket unit (a disable failure returns immediately with
that error), then delete its file (a delete failure — other than
the file already being absent — is logged and tolerated; oracle
`fail` on `removeFile` models such a failure). -/
def remSockets (o : Oracle) (st : SysSt) : List SocketInfo → SysSt × Option SvcErr
  | [] => (st, none)
  | sock :: rest =>
    let u := filepathBase sock.file
    let (st1, r1) := callOp o st (.disableU u)
    if r1 ≠ .ok then (st1, some (.disableFail u))
    else
      let (st2, r2) := callOp o st1 (.removeFile sock.file)
      remSockets o (if r2 = .ok then st2 else notifyObs st2) rest

/-- The body of the application loop of `RemoveSnapServices` for one
application (skipped unless it is a service with an existing unit
file): disable+delete socket units, disable+delete the timer unit,
then disable+delete the service unit itself.  Every disable failure
returns immediately; every delete failure is logged and
tolerated. -/
def removeApp (o : Oracle) (st : SysSt) (app : AppInfo) : SysSt × Bool × Option SvcErr :=
  if ¬app.isService ∨ ¬st.fs.contains app.serviceFilePath then (st, false, none)
  else
    match remSockets o st app.sockets with
    | (st1, some e) => (st1, true, some e)
    | (st1, none) =>
      let timerStep : SysSt × Option SvcErr :=
        match app.timer with
        | none => (st1, none)
        | some t =>
          let u := filepathBase t.file
          let (st2, r1) := callOp o st1 (.disableU u)
          if r1 ≠ .ok then (st2, some (.disableFail u))
          else
            let (st3, r2) := callOp o st2 (.removeFile t.file)
            ((if r2 = .ok then st3 else notifyObs st3), none)
      match timerStep with
      | (st4, some e) => (st4, true, some e)
      | (st4, none) =>
        let (st5, r3) := callOp o st4 (.disableU (serviceName app))
        if r3 ≠ .ok then (st5, true, some (.disableFail (serviceName app)))
        else
          let (st6, r4) := callOp o st5 (.removeFile app.serviceFilePath)
          ((if r4 = .ok then st6 else notifyObs st6), true, none)

/-- The application loop of `RemoveSnapServices`, counting the
applications that were actual services with a unit file present. -/
def removeLoop (o : Oracle) : List AppInfo → SysSt → Nat → (SysSt × Nat) × Option SvcErr
  | [], st, n => ((st, n), none)
  | app :: rest, st, n =>
    match removeApp o st app with
    | (st1, inc, none) => removeLoop o rest st1 (if inc then n + 1 else n)
    | (st1, _, some e) => ((st1, n), some e)

/-- `RemoveSnapServices(s, inter)`: the application loop, then — only
if at least one service existed — one daemon-reload. -/
def removeSnapServices (o : Oracle) (s : SnapInfo) (st0 : SysSt) : SysSt × Option SvcErr :=
  match removeLoop o s.apps st0 0 with
  | ((st, _), some e) => (st, some e)
  | ((st, n), none) =>
    if n > 0 then
      let (st1, r) := callOp o st .daemonReload
      if r = .ok then (st1, none) else (st1, some .reloadFail)
    else (st, none)

/-! ### StopServices / stopService -/

/-- The socket/timer prefix of `stopService`: stop each ancillary
unit, collecting (not propagating) failures. -/
def stopUnitsCollect (o : Oracle) (st : SysSt) (units : List String) (errs : List SvcErr) :
    SysSt × List SvcErr :=
  match units with
  | [] => (st, errs)
  | u :: rest =>
    let (st1, r) := callOp o st (.stopU u)
    stopUnitsCollect o st1 rest (if r = .ok then errs else errs ++ [.stopFail u])

/-- `stopService(sysd, app, inter)`: stop socket units and the timer
unit (collecting failures), then stop the service unit; a
non-timeout service-stop failure is returned at once; a timeout
leads to observer notification and TERM/KILL escalation.  Finally the
first collected ancillary failure, if any, is returned. -/
def stopServiceM (o : Oracle) (st : SysSt) (app : AppInfo) : SysSt × Option SvcErr :=
  let (st1, errs1) := stopUnitsCollect o st (app.sockets.map (fun sock => filepathBase sock.file)) []
  let (st2, errs) : SysSt × List SvcErr :=
    match app.timer with
    | none => (st1, errs1)
    | some t =>
      let (st', r) := callOp o st1 (.stopU (filepathBase t.file))
      (st', if r = .ok then errs1 else errs1 ++ [SvcErr.stopFail (filepathBase t.file)])
  let (st3, r3) := callOp o st2 (.stopU (serviceName app))
  if r3 = .ok then
    match errs with
    | e :: _ => (st3, some e)
    | [] => (st3, none)
  else if r3 = .timeoutFail then
    let stn := notifyObs st3
    let (stk1, _) := callOp o stn (.killU (serviceName app) "TERM")
    let (stk2, _) := callOp o stk1 (.killU (serviceName app) "KILL")
    match errs with
    | e :: _ => (stk2, some e)
    | [] => (stk2, none)
  else (st3, some (.stopFail (serviceName app)))

/-! ### StartServices -/

/-- The deferred per-application cleanup of `StartServices` (run only
when the call is returning an error): stop the service (a failure is
reported to the observer), then disable its socket units and timer
unit (failures likewise reported and swallowed). -/
def startRollbackApp (o : Oracle) (st : SysSt) (app : AppInfo) : SysSt :=
  let (st1, e) := stopServiceM o st app
  let st2 := if e.isSome then notifyObs st1 else st1
  let st3 := disableAll o st2 (app.sockets.map (fun sock => filepathBase sock.file))
  match app.timer with
  | none => st3
  | some t => disableAll o st3 [filepathBase t.file]

/-- Run the deferred cleanups; Go defers run in reverse registration
order. -/
def startRollbackList (o : Oracle) : List AppInfo → SysSt → SysSt
  | [], st => st
  | app :: rest, st => startRollbackList o rest (startRollbackApp o st app)

/-- The compensation of `StartServices` on error: deferred cleanups
for every registered application, last registered first. -/
def startRollback (o : Oracle) (st : SysSt) (processed : List AppInfo) : SysSt :=
  startRollbackList o processed.reverse st

/-- Enable then start each unit in the list, in order, aborting on the
first failure (the socket/timer activation of `StartServices`). -/
def enableStartUnits (o : Oracle) (st : SysSt) : List String → SysSt × Option SvcErr
  | [] => (st, none)
  | u :: rest =>
    let (st1, r1) := callOp o st (.enableU u)
    if r1 ≠ .ok then (st1, some (.enableFail u))
    else
      let (st2, r2) := callOp o st1 (.startU u)
      if r2 ≠ .ok then (st2, some (.startFail u))
      else enableStartUnits o st2 rest

/-- Accumulator of the first pass of `StartServices`: system state,
the applications whose deferred cleanup has been registered (in
registration order), and the queued plain service names. -/
structure StartAcc where
  st : SysSt
  processed : List AppInfo
  services : List String
deriving DecidableEq

/-- The body of the first pass of `StartServices` for one application:
register the deferred cleanup; for a plain service (no sockets, no
timer) query `IsEnabled` and queue the service name if enabled; then
enable+start socket units and the timer unit. -/
def startApp (o : Oracle) (acc : StartAcc) (app : AppInfo) : StartAcc × Option SvcErr :=
  if ¬app.isService then (acc, none)
  else
    let processed := acc.processed ++ [app]
    let queryStep : SysSt × List String × Option SvcErr :=
      if app.sockets.isEmpty ∧ app.timer.isNone then
        let ans := acc.st.enabledUnits.contains (serviceName app)
        let (st1, r) := callOp o acc.st (.isEnabledU (serviceName app))
        if r ≠ .ok then (st1, acc.services, some (.isEnabledFail (serviceName app)))
        else if ans then (st1, acc.services ++ [serviceName app], none)
        else (st1, acc.services, none)
      else (acc.st, acc.services, none)
    match queryStep with
    | (st1, services1, some e) => (⟨st1, processed, services1⟩, some e)
    | (st1, services1, none) =>
      match enableStartUnits o st1 (app.sockets.map (fun sock => filepathBase sock.file)) with
      | (st2, some e) => (⟨st2, processed, services1⟩, some e)
      | (st2, none) =>
        match app.timer with
        | none => (⟨st2, processed, services1⟩, none)
        | some t =>
          match enableStartUnits o st2 [filepathBase t.file] with
          | (st3, some e) => (⟨st3, processed, services1⟩, some e)
          | (st3, none) => (⟨st3, processed, services1⟩, none)

/-- The first pass of `StartServices` over the given application
list, aborting on the first failure. -/
def startLoop (o : Oracle) : List AppInfo → StartAcc → StartAcc × Option SvcErr
  | [], acc => (acc, none)
  | app :: rest, acc =>
    match startApp o acc app with
    | (acc1, none) => startLoop o rest acc1
    | (acc1, some e) => (acc1, some e)

/-- The second pass of `StartServices`: start the queued plain
services one at a time, strictly in order, aborting on the first
failure. -/
def startSecond (o : Oracle) : List String → SysSt → SysSt × Option SvcErr
  | [], st => (st, none)
  | u :: rest, st =>
    let (st1, r) := callOp o st (.startU u)
    if r ≠ .ok then (st1, some (.startFail u))
    else startSecond o rest st1

/-- `StartServices(apps, inter, tm)`: first pass (register cleanups,
queue enabled plain services, enable+start socket/timer units), then
the ordered one-by-one second pass; on any failure, run every
registered deferred cleanup and return the original error. -/
def startServices (o : Oracle) (apps : List AppInfo) (st0 : SysSt) : SysSt × Option SvcErr :=
  match startLoop o apps ⟨st0, [], []⟩ with
  | (acc, some e) => (startRollback o acc.st acc.processed, some e)
  | (acc, none) =>
    match startSecond o acc.services acc.st with
    | (st1, none) => (st1, none)
    | (st1, some e) => (startRollback o st1 acc.processed, some e)

/-- The service units started, in order, as recorded in a trace. -/
def startsOf (tr : List (Op × Res)) : List String :=
  tr.filterMap (fun c => match c.1 with | .startU u => some u | _ => none)

/-- The units sent a stop, in order, as recorded in a trace. -/
def stopsOf (tr : List (Op × Res)) : List String :=
  tr.filterMap (fun c => match c.1 with | .stopU u => some u | _ => none)

/-! ## Concrete fixtures used by witnesses and counterexamples -/

/-- Empty initial system state. -/
def st0e : SysSt := ⟨[], [], [], 0, 0, 0⟩

/-- Oracle under which every external call succeeds. -/
def oAllOk : Oracle := fun _ _ => .ok

/-- Oracle under which every file write fails and everything else
succeeds. -/
def oFailWrite : Oracle := fun _ op =>
  match op with
  | .writeFile _ => .fail
  | _ => .ok

/-- Oracle under which disabling the fixture socket unit fails and
everything else succeeds. -/
def oFailSockDisable : Oracle := fun _ op =>
  match op with
  | .disableU u => if u = "snap.foo.svc2.sock1.socket" then .fail else .ok
  | _ => .ok

/-- Oracle under which every file removal fails and everything else
succeeds. -/
def oFailRemove : Oracle := fun _ op =>
  match op with
  | .removeFile _ => .fail
  | _ => .ok

/-- Oracle under which starting the fixture service `svcB` fails and
everything else succeeds. -/
def oFailStartB : Oracle := fun _ op =>
  match op with
  | .startU u => if u = "snap.foo.svcB.service" then .fail else .ok
  | _ => .ok

/-- A plain valid simple service with neither sockets nor timer. -/
def baseApp : AppInfo :=
  { name := "svc1", snapInstanceName := "foo", daemon := "simple",
    serviceFilePath := "/etc/systemd/system/snap.foo.svc1.service",
    launcherCommand := "/usr/bin/snap run foo.svc1",
    launcherStopCommand := "", launcherReloadCommand := "", launcherPostStopCommand := "",
    stopCommand := "", reloadCommand := "", postStopCommand := "",
    restartCond := "", restartDelaySec := 0, stopTimeoutSec := 0,
    startTimeoutSec := 0, watchdogSec := 0, busName := "",
    killAll := true, killSignal := "", before := [], after := [],
    sockets := [], timer := none, dataDir := "/var/snap/foo/1",
    mountUnit := "snap-foo-1.mount", valid := true }

/-- A valid service with one socket and no timer. -/
def appSock : AppInfo :=
  { baseApp with
    name := "svc2",
    serviceFilePath := "/etc/systemd/system/snap.foo.svc2.service",
    sockets := [⟨"sock1", "/etc/systemd/system/snap.foo.svc2.sock1.socket"⟩] }

/-- A valid service with a timer and no sockets. -/
def appTimer : AppInfo :=
  { baseApp with
    name := "svc3",
    serviceFilePath := "/etc/systemd/system/snap.foo.svc3.service",
    timer := some ⟨"/etc/systemd/system/snap.foo.svc3.timer", true⟩ }

/-- A valid service with one socket and a timer. -/
def appSockTimer : AppInfo :=
  { appSock with timer := some ⟨"/etc/systemd/system/snap.foo.svc2.timer", true⟩ }

/-- Three plain valid services, used for the start-order fixture. -/
def appA : AppInfo :=
  { baseApp with name := "svcA", serviceFilePath := "/etc/systemd/system/snap.foo.svcA.service" }

/-- See `appA`. -/
def appB : AppInfo :=
  { baseApp with name := "svcB", serviceFilePath := "/etc/systemd/system/snap.foo.svcB.service" }

/-- See `appA`. -/
def appC : AppInfo :=
  { baseApp with name := "svcC", serviceFilePath := "/etc/systemd/system/snap.foo.svcC.service" }

/-- Initial state in which the three fixture services are enabled. -/
def stEnabledABC : SysSt :=
  { st0e with enabledUnits :=
      ["snap.foo.svcA.service", "snap.foo.svcB.service", "snap.foo.svcC.service"] }

/-- Initial state in which the unit files of `appSockTimer` exist on
disk. -/
def stWithSockTimerFiles : SysSt :=
  { st0e with fs :=
      ["/etc/systemd/system/snap.foo.svc2.service",
       "/etc/systemd/system/snap.foo.svc2.sock1.socket",
       "/etc/systemd/system/snap.foo.svc2.timer"] }

/-- The condition under which the `AddSnapServices` loop enables (and
records) an application's service unit: a valid service with neither
sockets nor timer whose name is not in the caller-supplied disabled
set. -/
def addEnableCond (disabledSvcs : List String) (app : AppInfo) : Bool :=
  app.isService && app.sockets.isEmpty && app.timer.isNone && !(disabledSvcs.contains app.name)

/-- A snap with the single plain service `baseApp`. -/
def snapOne : SnapInfo := ⟨"foo", [baseApp]⟩

/-- A snap with the single socket-activated service `appSock`. -/
def snapSock : SnapInfo := ⟨"foo", [appSock]⟩

/-- A snap with a socket-activated service and a plain service. -/
def snapMix : SnapInfo := ⟨"foo", [appSock, baseApp]⟩

/-- A snap with the single socket+timer service `appSockTimer`. -/
def snapSockTimer : SnapInfo := ⟨"foo", [appSockTimer]⟩

/-! # Theorems

## Calendar translator -/

/-- The `makeAbbrevWeekdays` loop never exits when the span ends on
Saturday: the guard compares `w % 7 < 7` against `6 + 1 = 7`. -/
theorem makeAbbrevLoop_saturday (fuel : Nat) :
    ∀ (w : Nat) (out : List String), makeAbbrevLoop fuel w 6 out = none := by
  induction fuel with
  | zero => intro w out; rfl
  | succ n ih =>
    intro w out
    have h : w % 7 ≠ 6 + 1 := by
      have := Nat.mod_lt w (show 0 < 7 by norm_num)
      omega
    rw [makeAbbrevLoop, if_neg h]
    exact ih _ _

/-- C9: the claim says `makeAbbrevWeekdays` terminates for every
start/end weekday pair with at most 7 abbreviations; on the code the
loop guard `w%7 != (end + 1)` is never satisfied when the end weekday
is Saturday (6), because `w % 7 < 7 = end + 1`, so the loop never
terminates — for any amount of fuel, and in particular for the fuel
used by `makeAbbrevWeekdays`. -/
theorem c9_saturday_end_diverges :
    (∀ (fuel w : Nat) (out : List String), makeAbbrevLoop fuel w 6 out = none)
    ∧ ∀ start, makeAbbrevWeekdays start 6 = none :=
  ⟨fun fuel w out => makeAbbrevLoop_saturday fuel w out,
   fun start => makeAbbrevLoop_saturday 14 start []⟩

/-- C10: the claim says the translator returns a result without
panicking on a spread span whose start equals its end; on the code the
window length is then 0, the 5-minute reduction does not apply, and
`rand.Int63n(0)` panics — for every clock value and every random
source. -/
theorem c10_zero_length_spread_panics (rng : Rng) (c : Clock) :
    generateOnCalendarSchedules rng [⟨[], [⟨c, c, true⟩]⟩] = .error .panicked := by
  have h : clockSub c c = 0 := by simp [clockSub]
  simp [generateOnCalendarSchedules, genChunks, genChunk, genDays, genStartTimes,
        genExpandedTimes, spanTime, spanWhen, ClockSpan.expand, h]

/-- C6 (counterexample): for the Monday–Tuesday every-week chunk at
fixed 10:00 the translator emits the Go `time.Weekday` three-letter
abbreviations, which are capitalized: the output is
`["Mon,Tue *-*-* 10:00:00"]`, not `["mon,tue *-*-* 10:00:00"]` as the
claim states. -/
theorem c6_counterexample :
    generateOnCalendarSchedules (fun _ => 0)
      [⟨[⟨⟨1, 0⟩, ⟨2, 0⟩⟩], [⟨⟨10, 0⟩, ⟨10, 0⟩, false⟩]⟩]
      = .ok ["Mon,Tue *-*-* 10:00:00"]
    ∧ ("Mon,Tue *-*-* 10:00:00" : String) ≠ "mon,tue *-*-* 10:00:00" :=
  ⟨rfl, by decide⟩

/-- C6 (amended): for every random source, the schedule consisting of
one chunk with the weekday range Monday–Tuesday marked "every week"
and the single fixed (non-spread) time 10:00 translates to exactly
`["Mon,Tue *-*-* 10:00:00"]` — the comma-joined three-letter
abbreviations (capitalized, as produced by Go's `Weekday.String`) of
the span's weekdays. -/
theorem c6_translate_mon_tue (rng : Rng) :
    generateOnCalendarSchedules rng
      [⟨[⟨⟨1, 0⟩, ⟨2, 0⟩⟩], [⟨⟨10, 0⟩, ⟨10, 0⟩, false⟩]⟩]
      = .ok ["Mon,Tue *-*-* 10:00:00"] := rfl

/-- A span whose start and end weekday coincide (and is not Saturday)
abbreviates to that single weekday. -/
theorem makeAbbrevWeekdays_self (d : Nat) (hd : d < 6) :
    makeAbbrevWeekdays d d = some [(weekdayName d).take 3] := by
  have h1 : d % 7 = d := Nat.mod_eq_of_lt (by omega)
  have h2 : (d + 1) % 7 = d + 1 := Nat.mod_eq_of_lt (by omega)
  have h3 : ¬d % 7 = d + 1 := by omega
  have h4 : (d + 1) % 7 = d + 1 := h2
  unfold makeAbbrevWeekdays
  rw [makeAbbrevLoop, if_neg h3, makeAbbrevLoop, if_pos h4]
  rw [h1]
  simp

/-- C7 (counterexample): for the span "1st Monday through 2nd Monday"
(equal start/end weekday, different week positions) at fixed 08:00,
the code compares the whole `Week` pair — weekday *and* position —
so `week.Start != week.End` holds and the weekday-less
over-approximation is emitted: the output is
`["*-*-1..14/1 08:00:00"]`, not `["mon *-*-1..14/1 08:00:00"]`
(nor its capitalized variant) as the claim states. -/
theorem c7_counterexample :
    generateOnCalendarSchedules (fun _ => 0)
      [⟨[⟨⟨1, 1⟩, ⟨1, 2⟩⟩], [⟨⟨8, 0⟩, ⟨8, 0⟩, false⟩]⟩]
      = .ok ["*-*-1..14/1 08:00:00"]
    ∧ ("*-*-1..14/1 08:00:00" : String) ≠ "mon *-*-1..14/1 08:00:00"
    ∧ ("*-*-1..14/1 08:00:00" : String) ≠ "Mon *-*-1..14/1 08:00:00" :=
  ⟨rfl, by decide, by decide⟩

/-- C7 (amended): for an Nth-to-Mth week-of-month span with equal
start and end weekday `d` (not Saturday) at fixed 08:00, the
translator computes `startDay = (startPos-1)*7+1` and
`endDay = endPos*7`, but emits the day entry with the weekday filter
only when the span's start and end agree entirely — same weekday
*and* same week position; whenever the positions differ (even with
equal weekdays, e.g. 1st Monday through 2nd Monday) the weekday-less
over-approximation `*-*-<startDay>..<endDay>/1` is emitted. -/
theorem c7_week_position_filter (d p1 p2 : Nat) (rng : Rng)
    (hd : d < 6) (h0 : p1 ≠ everyWeek) (h5 : p1 ≠ lastWeek) :
    generateOnCalendarSchedules rng
      [⟨[⟨⟨d, p1⟩, ⟨d, p2⟩⟩], [⟨⟨8, 0⟩, ⟨8, 0⟩, false⟩]⟩]
      = .ok [(if p1 = p2
              then (weekdayName d).take 3 ++ " *-*-" ++ toString ((p1 - 1) * 7 + 1)
                    ++ ".." ++ toString (p2 * 7) ++ "/1"
              else "*-*-" ++ toString ((p1 - 1) * 7 + 1) ++ ".." ++ toString (p2 * 7) ++ "/1")
             ++ " " ++ "08:00:00"] := by
  have habb := makeAbbrevWeekdays_self d hd
  have hr : Clock.render ⟨8, 0⟩ = "08:00:00" := rfl
  by_cases hpp : p1 = p2
  · subst hpp
    simp [generateOnCalendarSchedules, genChunks, genChunk, genDays, habb, goJoin,
          genStartTimes, genExpandedTimes, spanTime, spanWhen, ClockSpan.expand,
          crossEvents, hr, h0, h5]
  · have hne : (⟨d, p1⟩ : Week) ≠ ⟨d, p2⟩ := by
      intro h
      exact hpp (congrArg Week.pos h)
    simp [generateOnCalendarSchedules, genChunks, genChunk, genDays, habb, goJoin,
          genStartTimes, genExpandedTimes, spanTime, spanWhen, ClockSpan.expand,
          crossEvents, hr, h0, h5, hpp, hne]

/-- Witness for C7 (amended): the 1st-Monday-to-2nd-Monday span at
08:00 (equal weekdays, different positions). -/
theorem c7_witness :
    generateOnCalendarSchedules (fun _ => 0)
      [⟨[⟨⟨1, 1⟩, ⟨1, 2⟩⟩], [⟨⟨8, 0⟩, ⟨8, 0⟩, false⟩]⟩]
      = .ok [(if 1 = 2
              then (weekdayName 1).take 3 ++ " *-*-" ++ toString ((1 - 1) * 7 + 1)
                    ++ ".." ++ toString (2 * 7) ++ "/1"
              else "*-*-" ++ toString ((1 - 1) * 7 + 1) ++ ".." ++ toString (2 * 7) ++ "/1")
             ++ " " ++ "08:00:00"] :=
  c7_week_position_filter 1 1 2 (fun _ => 0) (by decide) (by decide) (by decide)

/-- C8: for every spread clock span with a nonzero window and every
value of the injected random source, the sampled start time is the
span start plus an offset strictly below the effective window length:
the full `|end - start|` when that is at most 5 minutes, and
`|end - start| - 5` minutes when it exceeds 5 minutes (so a 6-minute
window always samples within 1 minute of its start). -/
theorem c8_spread_sample (rng : Rng) (k : Nat) (a b : Clock)
    (hlen : (clockSub b a).natAbs ≠ 0) :
    ∃ off : Nat,
      off < (if 5 < (clockSub b a).natAbs
             then (clockSub b a).natAbs - 5 else (clockSub b a).natAbs)
      ∧ spanWhen rng k ⟨a, b, true⟩ = .ok (clockAdd a off, k + 1) := by
  set n := (clockSub b a).natAbs with hn
  have npos : 0 < n := Nat.pos_of_ne_zero hlen
  have h1 : (if clockSub b a < 0 then -(clockSub b a) else clockSub b a) = (n : Int) := by
    rcases lt_or_le (clockSub b a) 0 with h | h
    · rw [if_pos h]; omega
    · rw [if_neg (not_lt.mpr h)]; omega
  refine ⟨rng k % (if 5 < n then n - 5 else n), Nat.mod_lt _ (by split <;> omega), ?_⟩
  unfold spanWhen
  dsimp only
  rw [if_pos rfl]
  rw [show clockSub (⟨a, b, true⟩ : ClockSpan).endc (⟨a, b, true⟩ : ClockSpan).start
        = clockSub b a from rfl]
  rw [h1]
  by_cases h5 : 5 < n
  · have hgt : ((n : Int) > 5) := by omega
    rw [if_pos hgt]
    have hle : ¬((n : Int) - 5 ≤ 0) := by omega
    rw [if_neg hle]
    have ht : ((n : Int) - 5).toNat = n - 5 := by omega
    rw [ht, if_pos h5]
  · have hgt : ¬((n : Int) > 5) := by omega
    rw [if_neg hgt]
    have hle : ¬((n : Int) ≤ 0) := by omega
    rw [if_neg hle]
    have ht : ((n : Int)).toNat = n := by omega
    rw [ht, if_neg h5]

/-- Witness for C8, at a 6-minute spread window `10:00–10:06`: the
effective window is 1 minute. -/
theorem c8_spread_sample_witness :
    ∃ off : Nat,
      off < (if 5 < (clockSub ⟨10, 6⟩ ⟨10, 0⟩).natAbs
             then (clockSub ⟨10, 6⟩ ⟨10, 0⟩).natAbs - 5 else (clockSub ⟨10, 6⟩ ⟨10, 0⟩).natAbs)
      ∧ spanWhen (fun _ => 3) 0 ⟨⟨10, 0⟩, ⟨10, 6⟩, true⟩ = .ok (clockAdd ⟨10, 0⟩ off, 0 + 1) :=
  c8_spread_sample (fun _ => 3) 0 ⟨10, 0⟩ ⟨10, 6⟩ (by decide)

/-! ## Unit renderer -/

/-- A key-prefixed line whose key does not begin with `[` is never the
`[Install]` section header. -/
theorem key_append_ne_install (k v : String) (hne : k.data ≠ [])
    (hc : k.data.headD ' ' ≠ '[') : k ++ v ≠ "[Install]" := by
  intro he
  have h2 : k.data ++ v.data = "[Install]".data := congrArg String.data he
  cases hk : k.data with
  | nil => exact hne hk
  | cons c t =>
    rw [hk, List.cons_append] at h2
    have hhead := congrArg (fun l => l.headD ' ') h2
    simp only [List.headD_cons] at hhead
    have hhead2 : c = '[' := by
      rw [hhead]
    rw [hk] at hc
    simp only [List.headD_cons] at hc
    exact hc hhead2

/-- Membership in a conditionally-absent single line. -/
theorem mem_opt_nil_left {P : Prop} [Decidable P] {x l : String}
    (h : x ∈ if P then ([] : List String) else [l]) : x = l := by
  split at h
  · simp at h
  · simpa using h

/-- No line of the service unit body (before the trailing conditional
section) is the `[Install]` section header. -/
theorem install_not_mem_main (snapApps : List AppInfo) (app : AppInfo) :
    "[Install]" ∉ serviceMainLines snapApps app := by
  intro hmem
  simp only [serviceMainLines, List.mem_append, List.mem_cons, List.not_mem_nil, or_false,
             List.mem_singleton] at hmem
  casesm* _ ∨ _
  all_goals
    rename_i h
    first
    | exact absurd h (by decide)
    | exact key_append_ne_install _ _ (by decide) (by decide) h.symm
    | exact key_append_ne_install _ _ (by decide) (by decide) (mem_opt_nil_left h).symm

/-- C4 (counterexample): `appTimer` is a valid service-kind descriptor
with a timer and no sockets, yet its rendered service unit contains
the `[Install]` section with the `WantedBy` stanza — the template
suppresses the section only when the socket list is non-empty; a
timer alone does not suppress it. -/
theorem c4_counterexample :
    appTimer.valid = true
    ∧ appTimer.timer.isSome = true
    ∧ appTimer.sockets = []
    ∧ "[Install]" ∈ genServiceFileLines [appTimer] appTimer
    ∧ "WantedBy=" ++ servicesTarget ∈ genServiceFileLines [appTimer] appTimer := by
  refine ⟨rfl, rfl, rfl, ?_, ?_⟩ <;> decide

/-- C4 (amended): the rendered service unit contains the `[Install]`
section (with its `WantedBy` stanza) exactly when the descriptor has
no sockets: a descriptor with at least one socket omits it, and a
descriptor without sockets — with or without a timer, service-kind or
not — gets it. -/
theorem c4_install_iff_no_sockets (snapApps : List AppInfo) (app : AppInfo) :
    "[Install]" ∈ genServiceFileLines snapApps app ↔ app.sockets.isEmpty = true := by
  constructor
  · intro hmem
    cases hsock : app.sockets.isEmpty with
    | true => rfl
    | false =>
      exfalso
      simp only [genServiceFileLines, hsock, Bool.false_eq_true, if_false,
                 List.append_nil] at hmem
      exact install_not_mem_main snapApps app hmem
  · intro hsock
    simp [genServiceFileLines, hsock]

/-! ## Orchestration frame lemmas -/

/-- Ops other than the tagged rollback reload do not touch the
rollback-reload counter. -/
theorem applyOp_rollbackReloads (st : SysSt) (op : Op) (r : Res)
    (h : op ≠ Op.rollbackReload) :
    (applyOp st op r).rollbackReloads = st.rollbackReloads := by
  cases op <;> cases r <;> first | rfl | exact absurd rfl h

/-- See `applyOp_rollbackReloads`. -/
theorem callOp_rollbackReloads (o : Oracle) (st : SysSt) (op : Op)
    (h : op ≠ Op.rollbackReload) :
    ((callOp o st op).1).rollbackReloads = st.rollbackReloads :=
  applyOp_rollbackReloads st op (o st.k op) h

/-- Ops other than file writes/removals do not touch the filesystem. -/
theorem applyOp_fs (st : SysSt) (op : Op) (r : Res)
    (h : ∀ p, op ≠ Op.writeFile p ∧ op ≠ Op.removeFile p) :
    (applyOp st op r).fs = st.fs := by
  cases op <;> cases r <;>
    first | rfl | exact absurd rfl (h _).1 | exact absurd rfl (h _).2

/-- See `applyOp_fs`. -/
theorem callOp_fs (o : Oracle) (st : SysSt) (op : Op)
    (h : ∀ p, op ≠ Op.writeFile p ∧ op ≠ Op.removeFile p) :
    ((callOp o st op).1).fs = st.fs :=
  applyOp_fs st op (o st.k op) h

/-- Ops other than enable/disable do not touch the enabled set. -/
theorem applyOp_enabledUnits (st : SysSt) (op : Op) (r : Res)
    (h : ∀ u, op ≠ Op.enableU u ∧ op ≠ Op.disableU u) :
    (applyOp st op r).enabledUnits = st.enabledUnits := by
  cases op <;> cases r <;>
    first | rfl | exact absurd rfl (h _).1 | exact absurd rfl (h _).2

/-- See `applyOp_enabledUnits`. -/
theorem callOp_enabledUnits (o : Oracle) (st : SysSt) (op : Op)
    (h : ∀ u, op ≠ Op.enableU u ∧ op ≠ Op.disableU u) :
    ((callOp o st op).1).enabledUnits = st.enabledUnits :=
  applyOp_enabledUnits st op (o st.k op) h

/-- The tagged rollback reload bumps the counter whatever its
result. -/
theorem applyOp_rollbackReload_eq (st : SysSt) (r : Res) :
    applyOp st Op.rollbackReload r = { st with rollbackReloads := st.rollbackReloads + 1 } := by
  cases r <;> rfl

/-- A successful disable filters the unit out of the enabled set. -/
theorem applyOp_disable_ok (st : SysSt) (u : String) :
    applyOp st (Op.disableU u) Res.ok
      = { st with enabledUnits := st.enabledUnits.filter (fun v => v ≠ u) } := rfl

/-- A successful removal filters the path out of the filesystem. -/
theorem applyOp_remove_ok (st : SysSt) (p : String) :
    applyOp st (Op.removeFile p) Res.ok
      = { st with fs := st.fs.filter (fun q => q ≠ p) } := rfl

/-! ## AddSnapServices: compensation -/

/-- Under an oracle whose disables succeed, `disableAll` leaves the
filesystem and reload counter alone, only shrinks the enabled set,
and removes every listed unit from it. -/
theorem disableAll_spec (o : Oracle) (hok : ∀ k u, o k (Op.disableU u) = Res.ok) :
    ∀ (E : List String) (st : SysSt),
      (disableAll o st E).fs = st.fs
      ∧ (disableAll o st E).rollbackReloads = st.rollbackReloads
      ∧ (∀ x, x ∈ (disableAll o st E).enabledUnits → x ∈ st.enabledUnits)
      ∧ (∀ u, u ∈ E → u ∉ (disableAll o st E).enabledUnits) := by
  intro E
  induction E with
  | nil =>
    intro st
    exact ⟨rfl, rfl, fun x hx => hx, fun u hu => absurd hu (List.not_mem_nil u)⟩
  | cons u rest ih =>
    intro st
    have hstep : disableAll o st (u :: rest)
        = disableAll o ((callOp o st (Op.disableU u)).1) rest := by
      rw [disableAll]
      rcases hc : callOp o st (Op.disableU u) with ⟨st1, r⟩
      have hr : r = Res.ok := by
        have : (callOp o st (Op.disableU u)).2 = Res.ok := by
          simp [callOp, hok]
        rw [hc] at this
        exact this
      simp [hr]
    have hfields : (callOp o st (Op.disableU u)).1
        = { st with
            enabledUnits := st.enabledUnits.filter (fun v => v ≠ u)
            trace := st.trace ++ [(Op.disableU u, Res.ok)]
            k := st.k + 1 } := by
      simp [callOp, hok, applyOp_disable_ok]
    obtain ⟨ihfs, ihrr, ihsub, ihall⟩ := ih ((callOp o st (Op.disableU u)).1)
    rw [hstep]
    refine ⟨?_, ?_, ?_, ?_⟩
    · rw [ihfs, hfields]
    · rw [ihrr, hfields]
    · intro x hx
      have := ihsub x hx
      rw [hfields] at this
      simp only [List.mem_filter] at this
      exact this.1
    · intro v hv
      rcases List.mem_cons.1 hv with hv | hv
      · subst hv
        intro hmem
        have := ihsub v hmem
        rw [hfields] at this
        simp only [List.mem_filter, decide_eq_true_eq] at this
        exact this.2 rfl
      · exact ihall v hv

/-- Under an oracle whose removals succeed, `removeAllFiles` leaves
the enabled set and reload counter alone, only shrinks the
filesystem, and removes every listed path from it. -/
theorem removeAllFiles_spec (o : Oracle) (hok : ∀ k p, o k (Op.removeFile p) = Res.ok) :
    ∀ (W : List String) (st : SysSt),
      (removeAllFiles o st W).enabledUnits = st.enabledUnits
      ∧ (removeAllFiles o st W).rollbackReloads = st.rollbackReloads
      ∧ (∀ x, x ∈ (removeAllFiles o st W).fs → x ∈ st.fs)
      ∧ (∀ p, p ∈ W → p ∉ (removeAllFiles o st W).fs) := by
  intro W
  induction W with
  | nil =>
    intro st
    exact ⟨rfl, rfl, fun x hx => hx, fun p hp => absurd hp (List.not_mem_nil p)⟩
  | cons p rest ih =>
    intro st
    have hstep : removeAllFiles o st (p :: rest)
        = removeAllFiles o ((callOp o st (Op.removeFile p)).1) rest := by
      rw [removeAllFiles]
      rcases hc : callOp o st (Op.removeFile p) with ⟨st1, r⟩
      have hr : r = Res.ok := by
        have : (callOp o st (Op.removeFile p)).2 = Res.ok := by
          simp [callOp, hok]
        rw [hc] at this
        exact this
      simp [hr]
    have hfields : (callOp o st (Op.removeFile p)).1
        = { st with
            fs := st.fs.filter (fun q => q ≠ p)
            trace := st.trace ++ [(Op.removeFile p, Res.ok)]
            k := st.k + 1 } := by
      simp [callOp, hok, applyOp_remove_ok]
    obtain ⟨ihen, ihrr, ihsub, ihall⟩ := ih ((callOp o st (Op.removeFile p)).1)
    rw [hstep]
    refine ⟨?_, ?_, ?_, ?_⟩
    · rw [ihen, hfields]
    · rw [ihrr, hfields]
    · intro x hx
      have := ihsub x hx
      rw [hfields] at this
      simp only [List.mem_filter] at this
      exact this.1
    · intro q hq
      rcases List.mem_cons.1 hq with hq | hq
      · subst hq
        intro hmem
        have := ihsub q hmem
        rw [hfields] at this
        simp only [List.mem_filter, decide_eq_true_eq] at this
        exact this.2 rfl
      · exact ihall q hq

/-- The compensation of `AddSnapServices`, under compensating calls
that succeed: every written file is gone, every enabled unit is
disabled, and the compensating daemon-reload is issued exactly when
at least one file had been written. -/
theorem addRollback_spec (o : Oracle) (acc : AddAcc)
    (hdis : ∀ k u, o k (Op.disableU u) = Res.ok)
    (hrem : ∀ k p, o k (Op.removeFile p) = Res.ok) :
    (∀ p, p ∈ acc.written → p ∉ (addRollback o acc).fs)
    ∧ (∀ u, u ∈ acc.enabled → u ∉ (addRollback o acc).enabledUnits)
    ∧ (addRollback o acc).rollbackReloads
        = acc.st.rollbackReloads + (if acc.written.isEmpty then 0 else 1) := by
  obtain ⟨dfs, drr, dsub, dall⟩ := disableAll_spec o hdis acc.enabled acc.st
  obtain ⟨ren, rrr, rsub, rall⟩ :=
    removeAllFiles_spec o hrem acc.written (disableAll o acc.st acc.enabled)
  unfold addRollback
  by_cases hw : acc.written.isEmpty = true
  · rw [if_pos hw]
    have hwnil : acc.written = [] := by simpa using hw
    refine ⟨?_, ?_, ?_⟩
    · intro p hp
      rw [hwnil] at hp
      exact absurd hp (List.not_mem_nil p)
    · intro u hu
      rw [ren]
      exact dall u hu
    · rw [rrr, drr, if_pos hw]
      exact (Nat.add_zero _).symm
  · rw [if_neg hw]
    rcases hc : callOp o (removeAllFiles o (disableAll o acc.st acc.enabled) acc.written)
        Op.rollbackReload with ⟨st3, r⟩
    have hfs3 : st3.fs
        = (removeAllFiles o (disableAll o acc.st acc.enabled) acc.written).fs := by
      have h := callOp_fs o (removeAllFiles o (disableAll o acc.st acc.enabled) acc.written)
        Op.rollbackReload (fun p => ⟨by simp, by simp⟩)
      rw [hc] at h
      exact h
    have hen3 : st3.enabledUnits
        = (removeAllFiles o (disableAll o acc.st acc.enabled) acc.written).enabledUnits := by
      have h := callOp_enabledUnits o
        (removeAllFiles o (disableAll o acc.st acc.enabled) acc.written)
        Op.rollbackReload (fun u => ⟨by simp, by simp⟩)
      rw [hc] at h
      exact h
    have hrr3 : st3.rollbackReloads
        = (removeAllFiles o (disableAll o acc.st acc.enabled) acc.written).rollbackReloads
          + 1 := by
      have h : ((callOp o (removeAllFiles o (disableAll o acc.st acc.enabled) acc.written)
          Op.rollbackReload).1).rollbackReloads
          = (removeAllFiles o (disableAll o acc.st acc.enabled) acc.written).rollbackReloads
            + 1 := by
        show (applyOp (removeAllFiles o (disableAll o acc.st acc.enabled) acc.written)
            Op.rollbackReload
            (o (removeAllFiles o (disableAll o acc.st acc.enabled) acc.written).k
              Op.rollbackReload)).rollbackReloads = _
        rw [applyOp_rollbackReload_eq]
      rw [hc] at h
      exact h
    simp only [hc]
    have hffs : (if r = Res.ok then st3 else notifyObs st3).fs = st3.fs := by
      split <;> rfl
    have hfen : (if r = Res.ok then st3 else notifyObs st3).enabledUnits
        = st3.enabledUnits := by
      split <;> rfl
    have hfrr : (if r = Res.ok then st3 else notifyObs st3).rollbackReloads
        = st3.rollbackReloads := by
      split <;> rfl
    refine ⟨?_, ?_, ?_⟩
    · intro p hp
      rw [hffs, hfs3]
      exact rall p hp
    · intro u hu
      rw [hfen, hen3, ren]
      exact dall u hu
    · rw [hfrr, hrr3, rrr, drr, if_neg hw]

/-- The socket-write loop never touches the rollback-reload
counter. -/
theorem writeSocketFiles_rollbackReloads (o : Oracle) :
    ∀ (socks : List SocketInfo) (acc : AddAcc),
      ((writeSocketFiles o acc socks).1).st.rollbackReloads = acc.st.rollbackReloads := by
  intro socks
  induction socks with
  | nil => intro acc; rfl
  | cons sock rest ih =>
    intro acc
    rw [writeSocketFiles]
    rcases hc : callOp o acc.st (Op.writeFile sock.file) with ⟨st1, r⟩
    have h1 : st1.rollbackReloads = acc.st.rollbackReloads := by
      have h := callOp_rollbackReloads o acc.st (Op.writeFile sock.file) (by simp)
      rw [hc] at h
      exact h
    simp only [hc]
    split
    · exact (ih ⟨st1, acc.written ++ [sock.file], acc.enabled⟩).trans h1
    · exact h1

/-- The per-application body of the `AddSnapServices` loop never
touches the rollback-reload counter. -/
theorem addServiceApp_rollbackReloads (o : Oracle) (d : List String) (acc : AddAcc)
    (app : AppInfo) :
    ((addServiceApp o d acc app).1).st.rollbackReloads = acc.st.rollbackReloads := by
  unfold addServiceApp
  split
  · rfl
  · split
    · rfl
    · rcases hc1 : callOp o acc.st (Op.writeFile app.serviceFilePath) with ⟨st1, r1⟩
      have h1 : st1.rollbackReloads = acc.st.rollbackReloads := by
        have h := callOp_rollbackReloads o acc.st (Op.writeFile app.serviceFilePath) (by simp)
        rw [hc1] at h
        exact h
      dsimp only
      split
      · exact h1
      · rcases hs : writeSocketFiles o
            ⟨st1, acc.written ++ [app.serviceFilePath], acc.enabled⟩ app.sockets with ⟨acc2, e2⟩
        have h2 : acc2.st.rollbackReloads = acc.st.rollbackReloads := by
          have h := writeSocketFiles_rollbackReloads o app.sockets
            ⟨st1, acc.written ++ [app.serviceFilePath], acc.enabled⟩
          rw [hs] at h
          exact h.trans h1
        cases e2 with
        | some e => exact h2
        | none =>
          cases ht : app.timer with
          | none =>
            dsimp only
            split
            · exact h2
            · split
              · exact h2
              · rcases hc4 : callOp o acc2.st (Op.enableU (serviceName app)) with ⟨st4, r4⟩
                have h4 : st4.rollbackReloads = acc2.st.rollbackReloads := by
                  have h := callOp_rollbackReloads o acc2.st (Op.enableU (serviceName app))
                    (by simp)
                  rw [hc4] at h
                  exact h
                dsimp only
                split
                · exact h4.trans h2
                · exact h4.trans h2
          | some t =>
            dsimp only
            by_cases hpt : t.parseOk = true
            · rw [if_neg (fun hcon => hcon hpt)]
              rcases hc3 : callOp o acc2.st (Op.writeFile t.file) with ⟨st2, r2⟩
              have h3 : st2.rollbackReloads = acc.st.rollbackReloads := by
                have h := callOp_rollbackReloads o acc2.st (Op.writeFile t.file) (by simp)
                rw [hc3] at h
                exact h.trans h2
              by_cases hr2 : r2 = Res.ok
              · rw [if_neg (fun hcon => hcon hr2)]
                dsimp only
                rw [if_pos (show (some t).isSome = true ∨ ¬app.sockets.isEmpty = true
                      from Or.inl rfl)]
                exact h3
              · rw [if_pos hr2]
                exact h3
            · rw [if_pos hpt]
              exact h2

/-- The application loop of `AddSnapServices` never touches the
rollback-reload counter. -/
theorem addLoop_rollbackReloads (o : Oracle) (d : List String) :
    ∀ (apps : List AppInfo) (acc : AddAcc),
      ((addLoop o d apps acc).1).st.rollbackReloads = acc.st.rollbackReloads := by
  intro apps
  induction apps with
  | nil => intro acc; rfl
  | cons app rest ih =>
    intro acc
    rw [addLoop]
    rcases ha : addServiceApp o d acc app with ⟨acc1, e⟩
    have h1 : acc1.st.rollbackReloads = acc.st.rollbackReloads := by
      have h := addServiceApp_rollbackReloads o d acc app
      rw [ha] at h
      exact h
    cases e with
    | none => exact (ih acc1).trans h1
    | some e => exact h1

/-- The whole non-compensating phase of `AddSnapServices` never
touches the rollback-reload counter. -/
theorem addPrimary_rollbackReloads (o : Oracle) (s : SnapInfo) (d : List String)
    (st0 : SysSt) :
    ((addPrimary o s d st0).1).st.rollbackReloads = st0.rollbackReloads := by
  unfold addPrimary
  rcases hl : addLoop o d s.apps ⟨st0, [], []⟩ with ⟨acc, e⟩
  have h1 : acc.st.rollbackReloads = st0.rollbackReloads := by
    have h := addLoop_rollbackReloads o d s.apps ⟨st0, [], []⟩
    rw [hl] at h
    exact h
  cases e with
  | some e => exact h1
  | none =>
    dsimp only
    split
    · exact h1
    · rcases hc : callOp o acc.st Op.daemonReload with ⟨st1, r⟩
      have h2 : st1.rollbackReloads = acc.st.rollbackReloads := by
        have h := callOp_rollbackReloads o acc.st Op.daemonReload (by simp)
        rw [hc] at h
        exact h
      dsimp only
      split
      · exact h2.trans h1
      · exact h2.trans h1

/-- `disableAll` never touches the rollback-reload counter, whatever
the oracle answers. -/
theorem disableAll_rollbackReloads (o : Oracle) :
    ∀ (E : List String) (st : SysSt),
      (disableAll o st E).rollbackReloads = st.rollbackReloads := by
  intro E
  induction E with
  | nil => intro st; rfl
  | cons u rest ih =>
    intro st
    rw [disableAll]
    rcases hc : callOp o st (Op.disableU u) with ⟨st1, r⟩
    have h1 : st1.rollbackReloads = st.rollbackReloads := by
      have h := callOp_rollbackReloads o st (Op.disableU u) (by simp)
      rw [hc] at h
      exact h
    have h2 : (if r = Res.ok then st1 else notifyObs st1).rollbackReloads
        = st.rollbackReloads := by
      split
      · exact h1
      · exact h1
    exact (ih _).trans h2

/-- `removeAllFiles` never touches the rollback-reload counter,
whatever the oracle answers. -/
theorem removeAllFiles_rollbackReloads (o : Oracle) :
    ∀ (W : List String) (st : SysSt),
      (removeAllFiles o st W).rollbackReloads = st.rollbackReloads := by
  intro W
  induction W with
  | nil => intro st; rfl
  | cons p rest ih =>
    intro st
    rw [removeAllFiles]
    rcases hc : callOp o st (Op.removeFile p) with ⟨st1, r⟩
    have h1 : st1.rollbackReloads = st.rollbackReloads := by
      have h := callOp_rollbackReloads o st (Op.removeFile p) (by simp)
      rw [hc] at h
      exact h
    have h2 : (if r = Res.ok then st1 else notifyObs st1).rollbackReloads
        = st.rollbackReloads := by
      split
      · exact h1
      · exact h1
    exact (ih _).trans h2

/-- Whatever the oracle answers, the compensation of
`AddSnapServices` issues its daemon-reload exactly when at least one
file had been written. -/
theorem addRollback_rollbackReloads (o : Oracle) (acc : AddAcc) :
    (addRollback o acc).rollbackReloads
      = acc.st.rollbackReloads + (if acc.written.isEmpty then 0 else 1) := by
  unfold addRollback
  by_cases hw : acc.written.isEmpty = true
  · rw [if_pos hw, removeAllFiles_rollbackReloads, disableAll_rollbackReloads, if_pos hw]
    exact (Nat.add_zero _).symm
  · rw [if_neg hw]
    rcases hc : callOp o (removeAllFiles o (disableAll o acc.st acc.enabled) acc.written)
        Op.rollbackReload with ⟨st3, r⟩
    have h3 : st3.rollbackReloads
        = (removeAllFiles o (disableAll o acc.st acc.enabled) acc.written).rollbackReloads
          + 1 := by
      have h : ((callOp o (removeAllFiles o (disableAll o acc.st acc.enabled) acc.written)
          Op.rollbackReload).1).rollbackReloads
          = (removeAllFiles o (disableAll o acc.st acc.enabled) acc.written).rollbackReloads
            + 1 := by
        show (applyOp (removeAllFiles o (disableAll o acc.st acc.enabled) acc.written)
            Op.rollbackReload
            (o (removeAllFiles o (disableAll o acc.st acc.enabled) acc.written).k
              Op.rollbackReload)).rollbackReloads = _
        rw [applyOp_rollbackReload_eq]
      rw [hc] at h
      exact h
    have hfin : (if r = Res.ok then st3 else notifyObs st3).rollbackReloads
        = st3.rollbackReloads := by
      split
      · rfl
      · rfl
    rw [hfin, h3, removeAllFiles_rollbackReloads, disableAll_rollbackReloads, if_neg hw]

/-- C1: if `AddSnapServices` returns an error, then (i) what it
returns is the error of the non-compensating phase — the original
failure — however the compensating calls fare; (ii) a compensating
daemon-reload is issued exactly when at least one file had been
written before the failure; and (iii) when the compensating calls
succeed (they are best-effort: their failures are only reported to
the observer), every unit file written during the call has been
removed and every unit enabled during the call has been disabled. -/
theorem c1_addSnapServices_rollback (o : Oracle) (s : SnapInfo) (d : List String)
    (st0 : SysSt) (e : SvcErr)
    (hfail : (addSnapServices o s d st0).err = some e) :
    (addSnapServices o s d st0).err = (addPrimary o s d st0).2
    ∧ (addSnapServices o s d st0).st.rollbackReloads
        = st0.rollbackReloads
          + (if (addSnapServices o s d st0).written.isEmpty then 0 else 1)
    ∧ ((∀ k u, o k (Op.disableU u) = Res.ok) → (∀ k p, o k (Op.removeFile p) = Res.ok) →
        (∀ p, p ∈ (addSnapServices o s d st0).written
            → p ∉ (addSnapServices o s d st0).st.fs)
        ∧ (∀ u, u ∈ (addSnapServices o s d st0).enabled
            → u ∉ (addSnapServices o s d st0).st.enabledUnits)) := by
  have hrrp := addPrimary_rollbackReloads o s d st0
  rcases hp : addPrimary o s d st0 with ⟨acc, eo⟩
  rw [hp] at hrrp
  cases eo with
  | none =>
    exfalso
    have hnone : (addSnapServices o s d st0).err = none := by
      unfold addSnapServices
      rw [hp]
    rw [hnone] at hfail
    exact Option.noConfusion hfail
  | some e0 =>
    have hadd : addSnapServices o s d st0
        = ⟨addRollback o acc, acc.written, acc.enabled, some e0⟩ := by
      unfold addSnapServices
      rw [hp]
    rw [hadd]
    refine ⟨rfl, ?_, ?_⟩
    · exact (addRollback_rollbackReloads o acc).trans (by rw [hrrp])
    · intro hdis hrem
      obtain ⟨h1, h2, _⟩ := addRollback_spec o acc hdis hrem
      exact ⟨h1, h2⟩

/-- Witness for C1: a snap with one plain service under an oracle
whose file writes fail — the very first write fails and the call
returns that write error. -/
theorem c1_witness :
    (addSnapServices oFailWrite snapOne [] st0e).err
        = (addPrimary oFailWrite snapOne [] st0e).2
    ∧ (addSnapServices oFailWrite snapOne [] st0e).st.rollbackReloads
        = st0e.rollbackReloads
          + (if (addSnapServices oFailWrite snapOne [] st0e).written.isEmpty then 0 else 1)
    ∧ ((∀ k u, oFailWrite k (Op.disableU u) = Res.ok)
        → (∀ k p, oFailWrite k (Op.removeFile p) = Res.ok) →
        (∀ p, p ∈ (addSnapServices oFailWrite snapOne [] st0e).written
            → p ∉ (addSnapServices oFailWrite snapOne [] st0e).st.fs)
        ∧ (∀ u, u ∈ (addSnapServices oFailWrite snapOne [] st0e).enabled
            → u ∉ (addSnapServices oFailWrite snapOne [] st0e).st.enabledUnits)) :=
  c1_addSnapServices_rollback oFailWrite snapOne [] st0e
    (SvcErr.writeFail "/etc/systemd/system/snap.foo.svc1.service") (by decide)

/-- Under an all-ok oracle the socket-write loop succeeds, leaving
the enable ledger and the enabled set alone. -/
theorem writeSocketFiles_allok (o : Oracle) (hok : ∀ k op, o k op = Res.ok) :
    ∀ (socks : List SocketInfo) (acc : AddAcc),
      (writeSocketFiles o acc socks).2 = none
      ∧ ((writeSocketFiles o acc socks).1).enabled = acc.enabled
      ∧ ((writeSocketFiles o acc socks).1).st.enabledUnits = acc.st.enabledUnits := by
  intro socks
  induction socks with
  | nil => intro acc; exact ⟨rfl, rfl, rfl⟩
  | cons sock rest ih =>
    intro acc
    rw [writeSocketFiles]
    rcases hc : callOp o acc.st (Op.writeFile sock.file) with ⟨st1, r⟩
    have hr : r = Res.ok := by
      have h : (callOp o acc.st (Op.writeFile sock.file)).2 = Res.ok := by
        simp [callOp, hok]
      rw [hc] at h
      exact h
    have hen : st1.enabledUnits = acc.st.enabledUnits := by
      have h := callOp_enabledUnits o acc.st (Op.writeFile sock.file)
        (fun u => ⟨by simp, by simp⟩)
      rw [hc] at h
      exact h
    subst hr
    dsimp only
    rw [if_pos rfl]
    obtain ⟨i1, i2, i3⟩ := ih ⟨st1, acc.written ++ [sock.file], acc.enabled⟩
    exact ⟨i1, i2, i3.trans hen⟩

/-- Under an all-ok oracle, the per-application body of
`AddSnapServices` succeeds; it appends the service name to the
enable ledger exactly under `addEnableCond` (a plain enabled-able
service), and any unit newly present in the enabled set is that
service name under that same condition — in particular no socket or
timer unit is ever enabled, and a socket/timer-activated service is
left un-enabled. -/
theorem addServiceApp_allok (o : Oracle) (hok : ∀ k op, o k op = Res.ok)
    (d : List String) (acc : AddAcc) (app : AppInfo)
    (hv : app.valid = true)
    (hpt : ∀ t, app.timer = some t → t.parseOk = true) :
    (addServiceApp o d acc app).2 = none
    ∧ ((addServiceApp o d acc app).1).enabled
        = acc.enabled ++ (if addEnableCond d app then [serviceName app] else [])
    ∧ (∀ x, x ∈ ((addServiceApp o d acc app).1).st.enabledUnits
         → x ∈ acc.st.enabledUnits ∨ (addEnableCond d app = true ∧ x = serviceName app)) := by
  unfold addServiceApp
  by_cases hsvc : app.isService = true
  case neg =>
    rw [if_pos hsvc]
    have hsvc' : app.isService = false := by
      cases hb : app.isService
      · rfl
      · exact absurd hb hsvc
    have hcond : addEnableCond d app = false := by
      unfold addEnableCond
      rw [hsvc']
      rfl
    rw [hcond]
    exact ⟨rfl, by simp, fun x hx => Or.inl hx⟩
  case pos =>
    rw [if_neg (fun hcon => hcon hsvc), if_neg (fun hcon => hcon hv)]
    rcases hc1 : callOp o acc.st (Op.writeFile app.serviceFilePath) with ⟨st1, r1⟩
    have hr1 : r1 = Res.ok := by
      have h : (callOp o acc.st (Op.writeFile app.serviceFilePath)).2 = Res.ok := by
        simp [callOp, hok]
      rw [hc1] at h
      exact h
    have hen1 : st1.enabledUnits = acc.st.enabledUnits := by
      have h := callOp_enabledUnits o acc.st (Op.writeFile app.serviceFilePath)
        (fun u => ⟨by simp, by simp⟩)
      rw [hc1] at h
      exact h
    subst hr1
    dsimp only
    rw [if_neg (fun hcon => hcon rfl)]
    rcases hs : writeSocketFiles o
        ⟨st1, acc.written ++ [app.serviceFilePath], acc.enabled⟩ app.sockets with ⟨acc2, e2⟩
    obtain ⟨w1, w2, w3⟩ := writeSocketFiles_allok o hok app.sockets
      ⟨st1, acc.written ++ [app.serviceFilePath], acc.enabled⟩
    rw [hs] at w1 w2 w3
    have he2 : e2 = none := w1
    have w2' : acc2.enabled = acc.enabled := w2
    have w3' : acc2.st.enabledUnits = acc.st.enabledUnits := by
      have : acc2.st.enabledUnits = st1.enabledUnits := w3
      exact this.trans hen1
    subst he2
    dsimp only
    cases ht : app.timer with
    | none =>
      dsimp only
      by_cases hse : app.sockets.isEmpty = true
      · rw [if_neg (fun hcon => hcon.elim (fun h1 => Bool.noConfusion h1)
          (fun h2 => h2 hse))]
        by_cases hd : d.contains app.name = true
        · rw [if_pos hd]
          have hcond : addEnableCond d app = false := by
            unfold addEnableCond
            rw [hd, Bool.not_true, Bool.and_false]
          rw [hcond]
          exact ⟨rfl, by simp [w2'], fun x hx => Or.inl (w3' ▸ hx)⟩
        · rw [if_neg hd]
          rcases hc4 : callOp o acc2.st (Op.enableU (serviceName app)) with ⟨st4, r4⟩
          have hr4 : r4 = Res.ok := by
            have h : (callOp o acc2.st (Op.enableU (serviceName app))).2 = Res.ok := by
              simp [callOp, hok]
            rw [hc4] at h
            exact h
          subst hr4
          dsimp only
          rw [if_neg (fun hcon => hcon rfl)]
          have hcond : addEnableCond d app = true := by
            have hd' : d.contains app.name = false := by
              cases hb : d.contains app.name
              · rfl
              · exact absurd hb hd
            have htn : app.timer.isNone = true := by rw [ht]; rfl
            unfold addEnableCond
            rw [hsvc, hse, htn, hd']
            rfl
          rw [hcond]
          have hst4 : st4.enabledUnits
              = (if acc2.st.enabledUnits.contains (serviceName app)
                 then acc2.st.enabledUnits
                 else serviceName app :: acc2.st.enabledUnits) := by
            have h : ((callOp o acc2.st (Op.enableU (serviceName app))).1).enabledUnits
                = (if acc2.st.enabledUnits.contains (serviceName app)
                   then acc2.st.enabledUnits
                   else serviceName app :: acc2.st.enabledUnits) := by
              show (applyOp acc2.st (Op.enableU (serviceName app))
                  (o acc2.st.k (Op.enableU (serviceName app)))).enabledUnits = _
              rw [hok]
              rfl
            rw [hc4] at h
            exact h
          refine ⟨rfl, by simp [w2'], ?_⟩
          intro x hx
          have hx' := hst4 ▸ hx
          by_cases hcont : acc2.st.enabledUnits.contains (serviceName app) = true
          · rw [if_pos hcont] at hx'
            exact Or.inl (w3' ▸ hx')
          · rw [if_neg hcont] at hx'
            rcases List.mem_cons.1 hx' with hx1 | hx2
            · exact Or.inr ⟨rfl, hx1⟩
            · exact Or.inl (w3' ▸ hx2)
      · rw [if_pos (Or.inr hse)]
        have hse' : app.sockets.isEmpty = false := by
          cases hb : app.sockets.isEmpty
          · rfl
          · exact absurd hb hse
        have hcond : addEnableCond d app = false := by
          unfold addEnableCond
          rw [hse', Bool.and_false]
          rfl
        rw [hcond]
        exact ⟨rfl, by simp [w2'], fun x hx => Or.inl (w3' ▸ hx)⟩
    | some t =>
      have hptt : t.parseOk = true := hpt t ht
      dsimp only
      rw [if_neg (fun hcon => hcon hptt)]
      rcases hc3 : callOp o acc2.st (Op.writeFile t.file) with ⟨st2, r2⟩
      have hr2 : r2 = Res.ok := by
        have h : (callOp o acc2.st (Op.writeFile t.file)).2 = Res.ok := by
          simp [callOp, hok]
        rw [hc3] at h
        exact h
      have hen2 : st2.enabledUnits = acc2.st.enabledUnits := by
        have h := callOp_enabledUnits o acc2.st (Op.writeFile t.file)
          (fun u => ⟨by simp, by simp⟩)
        rw [hc3] at h
        exact h
      subst hr2
      dsimp only
      rw [if_neg (fun hcon => hcon rfl)]
      dsimp only
      rw [if_pos (show (some t).isSome = true ∨ ¬app.sockets.isEmpty = true
            from Or.inl rfl)]
      have hcond : addEnableCond d app = false := by
        have htn : app.timer.isNone = false := by rw [ht]; rfl
        unfold addEnableCond
        rw [htn, Bool.and_false]
        rfl
      rw [hcond]
      exact ⟨rfl, by simp [w2'], fun x hx => Or.inl (w3' ▸ (hen2 ▸ hx))⟩

/-- Under an all-ok oracle with valid applications and parseable
timers, the `AddSnapServices` loop succeeds and its enable ledger is
exactly the service units of the plain enable-able applications;
every unit newly in the enabled set is one of those. -/
theorem addLoop_allok (o : Oracle) (hok : ∀ k op, o k op = Res.ok) (d : List String) :
    ∀ (apps : List AppInfo) (acc : AddAcc),
      (∀ a ∈ apps, a.valid = true) →
      (∀ a ∈ apps, ∀ t, a.timer = some t → t.parseOk = true) →
      (addLoop o d apps acc).2 = none
      ∧ ((addLoop o d apps acc).1).enabled
          = acc.enabled ++ (apps.filter (addEnableCond d)).map serviceName
      ∧ (∀ x, x ∈ ((addLoop o d apps acc).1).st.enabledUnits
           → x ∈ acc.st.enabledUnits
             ∨ x ∈ (apps.filter (addEnableCond d)).map serviceName) := by
  intro apps
  induction apps with
  | nil =>
    intro acc _ _
    exact ⟨rfl, by simp [addLoop], fun x hx => Or.inl hx⟩
  | cons app rest ih =>
    intro acc hv hpt
    rw [addLoop]
    rcases ha : addServiceApp o d acc app with ⟨acc1, e⟩
    obtain ⟨a1, a2, a3⟩ := addServiceApp_allok o hok d acc app
      (hv app (List.mem_cons_self app rest))
      (fun t htt => hpt app (List.mem_cons_self app rest) t htt)
    rw [ha] at a1 a2 a3
    have he : e = none := a1
    subst he
    dsimp only
    obtain ⟨i1, i2, i3⟩ := ih acc1
      (fun a hamem => hv a (List.mem_cons_of_mem app hamem))
      (fun a hamem => hpt a (List.mem_cons_of_mem app hamem))
    have a2' : acc1.enabled
        = acc.enabled ++ (if addEnableCond d app then [serviceName app] else []) := a2
    have a3' : ∀ x, x ∈ acc1.st.enabledUnits
        → x ∈ acc.st.enabledUnits ∨ (addEnableCond d app = true ∧ x = serviceName app) :=
      a3
    refine ⟨i1, ?_, ?_⟩
    · rw [i2, a2', List.append_assoc]
      congr 1
      rw [List.filter_cons]
      by_cases hcnd : addEnableCond d app = true
      · rw [if_pos hcnd, if_pos hcnd, List.map_cons]
        rfl
      · rw [if_neg hcnd, if_neg hcnd]
        rfl
    · intro x hx
      rcases i3 x hx with h | h
      · rcases a3' x h with h2 | h2
        · exact Or.inl h2
        · refine Or.inr ?_
          rw [List.filter_cons, if_pos h2.1, List.map_cons]
          exact List.mem_cons.2 (Or.inl h2.2)
      · refine Or.inr ?_
        rw [List.filter_cons]
        by_cases hcnd : addEnableCond d app = true
        · rw [if_pos hcnd, List.map_cons]
          exact List.mem_cons.2 (Or.inr h)
        · rw [if_neg hcnd]
          exact h

/-- C3 (counterexample): for a snap whose only application is a valid
service with one socket, under an oracle where every call succeeds,
`AddSnapServices` writes the service and socket unit files and
returns successfully — but its enabled ledger is empty and nothing
is enabled at all: the socket unit is *not* enabled during
`AddSnapServices` (that happens later, in `StartServices`), contrary
to the claim that each ancillary unit is enabled immediately after
its file is written and recorded in the enabled-ledger. -/
theorem c3_counterexample :
    (addSnapServices oAllOk snapSock [] st0e).err = none
    ∧ (addSnapServices oAllOk snapSock [] st0e).written
        = ["/etc/systemd/system/snap.foo.svc2.service",
           "/etc/systemd/system/snap.foo.svc2.sock1.socket"]
    ∧ (addSnapServices oAllOk snapSock [] st0e).enabled = []
    ∧ (addSnapServices oAllOk snapSock [] st0e).st.enabledUnits = [] :=
  ⟨rfl, rfl, rfl, rfl⟩

/-- C3 (amended): during `AddSnapServices` (all calls succeeding,
applications valid, timer schedules parseable) the call succeeds and
the enabled ledger contains exactly the service units of the plain
enable-able applications — service-kind, no sockets, no timer, not in
the disabled set.  For every application with at least one socket or
a timer the unit files are written but nothing is enabled and nothing
recorded: neither the ancillary units nor the base service unit; every
unit enabled during the call is in the ledger.  (Ancillary units are
enabled later, by `StartServices`.) -/
theorem c3_add_activated_services_unenabled (o : Oracle) (s : SnapInfo)
    (d : List String) (st0 : SysSt)
    (hok : ∀ k op, o k op = Res.ok)
    (hv : ∀ a ∈ s.apps, a.valid = true)
    (hpt : ∀ a ∈ s.apps, ∀ t, a.timer = some t → t.parseOk = true) :
    (addSnapServices o s d st0).err = none
    ∧ (addSnapServices o s d st0).enabled
        = (s.apps.filter (addEnableCond d)).map serviceName
    ∧ (∀ x, x ∈ (addSnapServices o s d st0).st.enabledUnits
         → x ∈ st0.enabledUnits ∨ x ∈ (addSnapServices o s d st0).enabled) := by
  obtain ⟨l1, l2, l3⟩ := addLoop_allok o hok d s.apps ⟨st0, [], []⟩ hv hpt
  rcases hl : addLoop o d s.apps ⟨st0, [], []⟩ with ⟨acc, e⟩
  rw [hl] at l1 l2 l3
  have he : e = none := l1
  subst he
  have hadd : (addSnapServices o s d st0).err = none
      ∧ (addSnapServices o s d st0).enabled = acc.enabled
      ∧ (addSnapServices o s d st0).st.enabledUnits = acc.st.enabledUnits := by
    unfold addSnapServices addPrimary
    rw [hl]
    dsimp only
    by_cases hw : acc.written.isEmpty = true
    · rw [if_pos hw]
      exact ⟨rfl, rfl, rfl⟩
    · rw [if_neg hw]
      rcases hc : callOp o acc.st Op.daemonReload with ⟨st1, r⟩
      have hr : r = Res.ok := by
        have h : (callOp o acc.st Op.daemonReload).2 = Res.ok := by
          simp [callOp, hok]
        rw [hc] at h
        exact h
      subst hr
      dsimp only
      rw [if_pos rfl]
      have hen : st1.enabledUnits = acc.st.enabledUnits := by
        have h := callOp_enabledUnits o acc.st Op.daemonReload (fun u => ⟨by simp, by simp⟩)
        rw [hc] at h
        exact h
      exact ⟨rfl, rfl, hen⟩
  have l2' : acc.enabled = (s.apps.filter (addEnableCond d)).map serviceName := by
    have : acc.enabled
        = (⟨st0, [], []⟩ : AddAcc).enabled ++ (s.apps.filter (addEnableCond d)).map serviceName :=
      l2
    simpa using this
  refine ⟨hadd.1, hadd.2.1.trans l2', ?_⟩
  intro x hx
  rw [hadd.2.2] at hx
  rcases l3 x hx with h | h
  · exact Or.inl h
  · right
    rw [hadd.2.1, l2']
    exact h

/-- Witness for C3 (amended): a snap with one socket-activated and
one plain service, all calls succeeding. -/
theorem c3_witness :
    (addSnapServices oAllOk snapMix [] st0e).err = none
    ∧ (addSnapServices oAllOk snapMix [] st0e).enabled
        = (snapMix.apps.filter (addEnableCond [])).map serviceName
    ∧ (∀ x, x ∈ (addSnapServices oAllOk snapMix [] st0e).st.enabledUnits
         → x ∈ st0e.enabledUnits ∨ x ∈ (addSnapServices oAllOk snapMix [] st0e).enabled) :=
  c3_add_activated_services_unenabled oAllOk snapMix [] st0e
    (fun _ _ => rfl)
    (by decide)
    (fun a ha t htt => by
      rcases List.mem_cons.1 ha with ha | ha
      · rw [ha] at htt
        exact Option.noConfusion htt
      · rcases List.mem_cons.1 ha with ha | ha
        · rw [ha] at htt
          exact Option.noConfusion htt
        · exact absurd ha (List.not_mem_nil a))

/-! ## RemoveSnapServices -/

/-- When every disable succeeds, the socket cleanup loop of
`RemoveSnapServices` never aborts — file-removal failures are only
logged. -/
theorem remSockets_disables_ok (o : Oracle) (hdis : ∀ k u, o k (Op.disableU u) = Res.ok) :
    ∀ (socks : List SocketInfo) (st : SysSt), (remSockets o st socks).2 = none := by
  intro socks
  induction socks with
  | nil => intro st; rfl
  | cons sock rest ih =>
    intro st
    rw [remSockets]
    rcases hc : callOp o st (Op.disableU (filepathBase sock.file)) with ⟨st1, r1⟩
    have hr : r1 = Res.ok := by
      have h : (callOp o st (Op.disableU (filepathBase sock.file))).2 = Res.ok := by
        simp [callOp, hdis]
      rw [hc] at h
      exact h
    subst hr
    dsimp only
    rw [if_neg (fun hcon => hcon rfl)]
    rcases hc2 : callOp o st1 (Op.removeFile sock.file) with ⟨st2, r2⟩
    exact ih _

/-- The socket cleanup loop fails only with a disable error. -/
theorem remSockets_err (o : Oracle) :
    ∀ (socks : List SocketInfo) (st : SysSt),
      (remSockets o st socks).2 = none
      ∨ ∃ u, (remSockets o st socks).2 = some (SvcErr.disableFail u) := by
  intro socks
  induction socks with
  | nil => intro st; exact Or.inl rfl
  | cons sock rest ih =>
    intro st
    rw [remSockets]
    rcases hc : callOp o st (Op.disableU (filepathBase sock.file)) with ⟨st1, r1⟩
    dsimp only
    by_cases hr : r1 = Res.ok
    · rw [if_neg (fun hcon => hcon hr)]
      rcases hc2 : callOp o st1 (Op.removeFile sock.file) with ⟨st2, r2⟩
      exact ih _
    · rw [if_pos hr]
      exact Or.inr ⟨filepathBase sock.file, rfl⟩

/-- When every disable succeeds, the per-application removal never
aborts: socket, timer and service unit file deletions may fail and
are only logged. -/
theorem removeApp_disables_ok (o : Oracle) (hdis : ∀ k u, o k (Op.disableU u) = Res.ok)
    (st : SysSt) (app : AppInfo) :
    (removeApp o st app).2.2 = none := by
  unfold removeApp
  split
  · rfl
  · rcases hrs : remSockets o st app.sockets with ⟨st1, e1⟩
    have he1 : e1 = none := by
      have h := remSockets_disables_ok o hdis app.sockets st
      rw [hrs] at h
      exact h
    subst he1
    dsimp only
    cases ht : app.timer with
    | none =>
      dsimp only
      rcases hc : callOp o st1 (Op.disableU (serviceName app)) with ⟨st5, r3⟩
      have hr3 : r3 = Res.ok := by
        have h : (callOp o st1 (Op.disableU (serviceName app))).2 = Res.ok := by
          simp [callOp, hdis]
        rw [hc] at h
        exact h
      subst hr3
      dsimp only
      rw [if_neg (fun hcon => hcon rfl)]
    | some t =>
      dsimp only
      rcases hct : callOp o st1 (Op.disableU (filepathBase t.file)) with ⟨st2, rt⟩
      have hrt : rt = Res.ok := by
        have h : (callOp o st1 (Op.disableU (filepathBase t.file))).2 = Res.ok := by
          simp [callOp, hdis]
        rw [hct] at h
        exact h
      subst hrt
      dsimp only
      rw [if_neg (fun hcon => hcon rfl)]
      rcases hct2 : callOp o st2 (Op.removeFile t.file) with ⟨st3, rt2⟩
      dsimp only
      rcases hc : callOp o (if rt2 = Res.ok then st3 else notifyObs st3)
          (Op.disableU (serviceName app)) with ⟨st5, r3⟩
      have hr3 : r3 = Res.ok := by
        have h : (callOp o (if rt2 = Res.ok then st3 else notifyObs st3)
            (Op.disableU (serviceName app))).2 = Res.ok := by
          simp [callOp, hdis]
        rw [hc] at h
        exact h
      subst hr3
      dsimp only
      rw [if_neg (fun hcon => hcon rfl)]

/-- The per-application removal fails only with a disable error. -/
theorem removeApp_err (o : Oracle) (st : SysSt) (app : AppInfo) :
    (removeApp o st app).2.2 = none
    ∨ ∃ u, (removeApp o st app).2.2 = some (SvcErr.disableFail u) := by
  unfold removeApp
  split
  · exact Or.inl rfl
  · rcases hrs : remSockets o st app.sockets with ⟨st1, e1⟩
    cases e1 with
    | some e =>
      have h := remSockets_err o app.sockets st
      rw [hrs] at h
      rcases h with h | ⟨u, h⟩
      · exact absurd h (by simp)
      · have he : e = SvcErr.disableFail u := Option.some.inj h
        subst he
        exact Or.inr ⟨u, rfl⟩
    | none =>
      dsimp only
      cases ht : app.timer with
      | none =>
        dsimp only
        rcases hc : callOp o st1 (Op.disableU (serviceName app)) with ⟨st5, r3⟩
        dsimp only
        by_cases hr3 : r3 = Res.ok
        · rw [if_neg (fun hcon => hcon hr3)]
          rcases hc2 : callOp o st5 (Op.removeFile app.serviceFilePath) with ⟨st6, r4⟩
          exact Or.inl rfl
        · rw [if_pos hr3]
          exact Or.inr ⟨serviceName app, rfl⟩
      | some t =>
        dsimp only
        rcases hct : callOp o st1 (Op.disableU (filepathBase t.file)) with ⟨st2, rt⟩
        dsimp only
        by_cases hrt : rt = Res.ok
        · rw [if_neg (fun hcon => hcon hrt)]
          rcases hct2 : callOp o st2 (Op.removeFile t.file) with ⟨st3, rt2⟩
          dsimp only
          rcases hc : callOp o (if rt2 = Res.ok then st3 else notifyObs st3)
              (Op.disableU (serviceName app)) with ⟨st5, r3⟩
          dsimp only
          by_cases hr3 : r3 = Res.ok
          · rw [if_neg (fun hcon => hcon hr3)]
            rcases hc2 : callOp o st5 (Op.removeFile app.serviceFilePath) with ⟨st6, r4⟩
            exact Or.inl rfl
          · rw [if_pos hr3]
            exact Or.inr ⟨serviceName app, rfl⟩
        · rw [if_pos hrt]
          exact Or.inr ⟨filepathBase t.file, rfl⟩

/-- When every disable succeeds, the application loop of
`RemoveSnapServices` never aborts. -/
theorem removeLoop_disables_ok (o : Oracle) (hdis : ∀ k u, o k (Op.disableU u) = Res.ok) :
    ∀ (apps : List AppInfo) (st : SysSt) (n : Nat),
      (removeLoop o apps st n).2 = none := by
  intro apps
  induction apps with
  | nil => intro st n; rfl
  | cons app rest ih =>
    intro st n
    rw [removeLoop]
    rcases hra : removeApp o st app with ⟨st1, inc, e⟩
    have he : e = none := by
      have h := removeApp_disables_ok o hdis st app
      rw [hra] at h
      exact h
    subst he
    exact ih _ _

/-- The application loop of `RemoveSnapServices` fails only with a
disable error. -/
theorem removeLoop_err (o : Oracle) :
    ∀ (apps : List AppInfo) (st : SysSt) (n : Nat),
      (removeLoop o apps st n).2 = none
      ∨ ∃ u, (removeLoop o apps st n).2 = some (SvcErr.disableFail u) := by
  intro apps
  induction apps with
  | nil => intro st n; exact Or.inl rfl
  | cons app rest ih =>
    intro st n
    rw [removeLoop]
    rcases hra : removeApp o st app with ⟨st1, inc, e⟩
    cases e with
    | none => exact ih _ _
    | some e0 =>
      have h := removeApp_err o st app
      rw [hra] at h
      rcases h with h | ⟨u, h⟩
      · exact absurd h (by simp)
      · have he : e0 = SvcErr.disableFail u := Option.some.inj h
        subst he
        exact Or.inr ⟨u, rfl⟩

/-- C2 (amended): in `RemoveSnapServices`, a failure to *delete* a
socket, timer or service unit file is logged and does not abort
processing — when every disable (and the final reload) succeeds the
call returns no error however the deletions fare; and the only errors
the call can return are a unit *disable* failure (socket, timer or
the primary service unit alike — each aborts immediately) or a
final-reload failure. -/
theorem c2_remove_error_policy (o : Oracle) (s : SnapInfo) (st0 : SysSt) :
    ((∀ k u, o k (Op.disableU u) = Res.ok) → (∀ k, o k Op.daemonReload = Res.ok) →
      (removeSnapServices o s st0).2 = none)
    ∧ ((removeSnapServices o s st0).2 = none
       ∨ (∃ u, (removeSnapServices o s st0).2 = some (SvcErr.disableFail u))
       ∨ (removeSnapServices o s st0).2 = some SvcErr.reloadFail) := by
  constructor
  · intro hdis hrel
    unfold removeSnapServices
    rcases hrl : removeLoop o s.apps st0 0 with ⟨⟨st, n⟩, e⟩
    have he : e = none := by
      have h := removeLoop_disables_ok o hdis s.apps st0 0
      rw [hrl] at h
      exact h
    subst he
    dsimp only
    split
    · rcases hc : callOp o st Op.daemonReload with ⟨st1, r⟩
      have hr : r = Res.ok := by
        have h : (callOp o st Op.daemonReload).2 = Res.ok := by
          simp [callOp, hrel]
        rw [hc] at h
        exact h
      subst hr
      dsimp only
      rw [if_pos rfl]
    · rfl
  · unfold removeSnapServices
    rcases hrl : removeLoop o s.apps st0 0 with ⟨⟨st, n⟩, e⟩
    cases e with
    | some e0 =>
      have h := removeLoop_err o s.apps st0 0
      rw [hrl] at h
      rcases h with h | ⟨u, h⟩
      · exact absurd h (by simp)
      · have he : e0 = SvcErr.disableFail u := Option.some.inj h
        subst he
        exact Or.inr (Or.inl ⟨u, rfl⟩)
    | none =>
      dsimp only
      split
      · rcases hc : callOp o st Op.daemonReload with ⟨st1, r⟩
        dsimp only
        by_cases hr : r = Res.ok
        · rw [if_pos hr]
          exact Or.inl rfl
        · rw [if_neg hr]
          exact Or.inr (Or.inr rfl)
      · exact Or.inl rfl

/-- Witness for C2 (amended): a service with a socket and a timer,
all unit files present, under an oracle where every file removal
fails but disables succeed — the call still returns no error. -/
theorem c2_witness :
    (removeSnapServices oFailRemove snapSockTimer stWithSockTimerFiles).2 = none :=
  (c2_remove_error_policy oFailRemove snapSockTimer stWithSockTimerFiles).1
    (fun _ _ => rfl) (fun _ => rfl)

/-- C2 (counterexample): for a service with one socket and a timer
whose unit files exist, an oracle failing exactly the disable of the
socket unit makes `RemoveSnapServices` return immediately with that
disable error — the loop aborts, leaving even the service and timer
unit files on disk — contrary to the claim that a socket-unit disable
failure is logged and processing continues. -/
theorem c2_counterexample :
    (removeSnapServices oFailSockDisable snapSockTimer stWithSockTimerFiles).2
        = some (SvcErr.disableFail "snap.foo.svc2.sock1.socket")
    ∧ "/etc/systemd/system/snap.foo.svc2.service"
        ∈ (removeSnapServices oFailSockDisable snapSockTimer stWithSockTimerFiles).1.fs
    ∧ "/etc/systemd/system/snap.foo.svc2.timer"
        ∈ (removeSnapServices oFailSockDisable snapSockTimer stWithSockTimerFiles).1.fs := by
  refine ⟨by decide, by decide, by decide⟩

/-! ## StartServices -/

/-- `startsOf` distributes over trace concatenation. -/
theorem startsOf_append (t1 t2 : List (Op × Res)) :
    startsOf (t1 ++ t2) = startsOf t1 ++ startsOf t2 :=
  List.filterMap_append t1 t2 _

/-- `stopsOf` distributes over trace concatenation. -/
theorem stopsOf_append (t1 t2 : List (Op × Res)) :
    stopsOf (t1 ++ t2) = stopsOf t1 ++ stopsOf t2 :=
  List.filterMap_append t1 t2 _

/-- Trace recorded by one call. -/
theorem callOp_trace (o : Oracle) (st : SysSt) (op : Op) :
    ((callOp o st op).1).trace = st.trace ++ [(op, o st.k op)] := rfl

/-- A single non-start event contributes nothing to `startsOf`. -/
theorem startsOf_single (op : Op) (r : Res) :
    startsOf [(op, r)] = (match op with | Op.startU u => [u] | _ => []) := by
  cases op <;> rfl

/-- A single non-stop event contributes nothing to `stopsOf`. -/
theorem stopsOf_single (op : Op) (r : Res) :
    stopsOf [(op, r)] = (match op with | Op.stopU u => [u] | _ => []) := by
  cases op <;> rfl

/-- The first pass of `StartServices` on a plain service (no sockets,
no timer) that the manager reports enabled: it registers the deferred
cleanup, queries `IsEnabled`, and queues the plain service name —
nothing is enabled or started. -/
theorem startApp_plain (o : Oracle) (acc : StartAcc) (app : AppInfo)
    (hq : ∀ k u, o k (Op.isEnabledU u) = Res.ok)
    (h1 : app.isService = true) (h2 : app.sockets = []) (h3 : app.timer = none)
    (h4 : serviceName app ∈ acc.st.enabledUnits) :
    startApp o acc app
      = (⟨(callOp o acc.st (Op.isEnabledU (serviceName app))).1,
          acc.processed ++ [app],
          acc.services ++ [serviceName app]⟩, none) := by
  unfold startApp
  rw [if_neg (fun hcon => hcon h1)]
  have hcond : app.sockets.isEmpty = true ∧ app.timer.isNone = true :=
    ⟨by rw [h2]; rfl, by rw [h3]; rfl⟩
  rw [if_pos hcond]
  rcases hcq : callOp o acc.st (Op.isEnabledU (serviceName app)) with ⟨st1, r⟩
  have hr : r = Res.ok := by
    have h : (callOp o acc.st (Op.isEnabledU (serviceName app))).2 = Res.ok := by
      simp [callOp, hq]
    rw [hcq] at h
    exact h
  subst hr
  dsimp only
  rw [if_neg (fun hcon => hcon rfl)]
  have hans : acc.st.enabledUnits.contains (serviceName app) = true :=
    List.elem_eq_true_of_mem h4
  rw [if_pos hans]
  dsimp only
  rw [h2, h3]
  rfl

/-- The first pass of `StartServices` over plain, enabled services
succeeds, registers every application, queues every service name in
order, and neither starts nor stops nor enables anything. -/
theorem startLoop_plain (o : Oracle) (hq : ∀ k u, o k (Op.isEnabledU u) = Res.ok) :
    ∀ (apps : List AppInfo) (acc : StartAcc),
      (∀ a ∈ apps, a.isService = true ∧ a.sockets = [] ∧ a.timer = none) →
      (∀ a ∈ apps, serviceName a ∈ acc.st.enabledUnits) →
      (startLoop o apps acc).2 = none
      ∧ ((startLoop o apps acc).1).processed = acc.processed ++ apps
      ∧ ((startLoop o apps acc).1).services = acc.services ++ apps.map serviceName
      ∧ ((startLoop o apps acc).1).st.enabledUnits = acc.st.enabledUnits
      ∧ startsOf ((startLoop o apps acc).1).st.trace = startsOf acc.st.trace
      ∧ stopsOf ((startLoop o apps acc).1).st.trace = stopsOf acc.st.trace := by
  intro apps
  induction apps with
  | nil =>
    intro acc _ _
    exact ⟨rfl, by simp [startLoop], by simp [startLoop], rfl, rfl, rfl⟩
  | cons app rest ih =>
    intro acc hsvc henab
    obtain ⟨ha1, ha2, ha3⟩ := hsvc app (List.mem_cons_self app rest)
    have happ := startApp_plain o acc app hq ha1 ha2 ha3
      (henab app (List.mem_cons_self app rest))
    rw [startLoop, happ]
    dsimp only
    have hen1 : ((callOp o acc.st (Op.isEnabledU (serviceName app))).1).enabledUnits
        = acc.st.enabledUnits :=
      callOp_enabledUnits o acc.st (Op.isEnabledU (serviceName app))
        (fun u => ⟨by simp, by simp⟩)
    obtain ⟨i1, i2, i3, i4, i5, i6⟩ := ih
      ⟨(callOp o acc.st (Op.isEnabledU (serviceName app))).1,
        acc.processed ++ [app], acc.services ++ [serviceName app]⟩
      (fun a ha => hsvc a (List.mem_cons_of_mem app ha))
      (fun a ha => by
        have := henab a (List.mem_cons_of_mem app ha)
        show serviceName a ∈ ((callOp o acc.st (Op.isEnabledU (serviceName app))).1).enabledUnits
        rw [hen1]
        exact this)
    have htr : ((callOp o acc.st (Op.isEnabledU (serviceName app))).1).trace
        = acc.st.trace ++ [(Op.isEnabledU (serviceName app),
            o acc.st.k (Op.isEnabledU (serviceName app)))] :=
      callOp_trace o acc.st (Op.isEnabledU (serviceName app))
  
    refine ⟨i1, ?_, ?_, ?_, ?_, ?_⟩
    · rw [i2, List.append_assoc]
      rfl
    · rw [i3, List.append_assoc]
      rfl
    · rw [i4, hen1]
    · rw [i5, htr, startsOf_append, startsOf_single]
      simp
    · rw [i6, htr, stopsOf_append, stopsOf_single]
      simp

/-- The second pass of `StartServices`: on success it has started
exactly the queued names, in order; on failure it has started
exactly the names up to and including the one whose start failed, and
returns that start error.  It never stops anything. -/
theorem startSecond_spec (o : Oracle) :
    ∀ (names : List String) (st : SysSt),
      ((startSecond o names st).2 = none
        → startsOf ((startSecond o names st).1).trace = startsOf st.trace ++ names
          ∧ stopsOf ((startSecond o names st).1).trace = stopsOf st.trace)
      ∧ (∀ e, (startSecond o names st).2 = some e
        → ∃ i, i < names.length ∧ e = SvcErr.startFail (names.getD i "")
            ∧ startsOf ((startSecond o names st).1).trace
                = startsOf st.trace ++ names.take (i + 1)
            ∧ stopsOf ((startSecond o names st).1).trace = stopsOf st.trace) := by
  intro names
  induction names with
  | nil =>
    intro st
    constructor
    · intro _
      exact ⟨by simp [startSecond], rfl⟩
    · intro e h
      exact absurd h (by simp [startSecond])
  | cons u rest ih =>
    intro st
    rw [startSecond]
    rcases hc : callOp o st (Op.startU u) with ⟨st1, r⟩
    dsimp only
    have htr : st1.trace = st.trace ++ [(Op.startU u, o st.k (Op.startU u))] := by
      have h := callOp_trace o st (Op.startU u)
      rw [hc] at h
      exact h
    have hst : startsOf st1.trace = startsOf st.trace ++ [u] := by
      rw [htr, startsOf_append, startsOf_single]
    have hsp : stopsOf st1.trace = stopsOf st.trace := by
      rw [htr, stopsOf_append, stopsOf_single]
      simp
    by_cases hr : r = Res.ok
    · rw [if_neg (fun hcon => hcon hr)]
      obtain ⟨ihn, ihe⟩ := ih st1
      constructor
      · intro hnone
        obtain ⟨i1, i2⟩ := ihn hnone
        constructor
        · rw [i1, hst, List.append_assoc]
          rfl
        · rw [i2, hsp]
      · intro e he
        obtain ⟨i, hi, he', hs', hsp'⟩ := ihe e he
        refine ⟨i + 1, by simpa using hi, he', ?_, ?_⟩
        · rw [hs', hst, List.append_assoc]
          rfl
        · rw [hsp', hsp]
    · rw [if_pos hr]
      constructor
      · intro hnone
        exact absurd hnone (by simp)
      · intro e he
        have he' : e = SvcErr.startFail u := (Option.some.inj he).symm
        refine ⟨0, by simp, by simpa using he', ?_, ?_⟩
        · simpa using hst
        · exact hsp

/-- The deferred cleanup of one plain service: one stop of its
service unit (plus, on a stop timeout, kill escalations), no
starts. -/
theorem startRollbackApp_plain (o : Oracle) (st : SysSt) (app : AppInfo)
    (h2 : app.sockets = []) (h3 : app.timer = none) :
    startsOf (startRollbackApp o st app).trace = startsOf st.trace
    ∧ stopsOf (startRollbackApp o st app).trace = stopsOf st.trace ++ [serviceName app] := by
  unfold startRollbackApp stopServiceM
  rw [h2, h3]
  dsimp only [List.map_nil, stopUnitsCollect]
  rcases hc : callOp o st (Op.stopU (serviceName app)) with ⟨st3, r3⟩
  dsimp only
  have htr : st3.trace = st.trace ++ [(Op.stopU (serviceName app), o st.k (Op.stopU (serviceName app)))] := by
    have h := callOp_trace o st (Op.stopU (serviceName app))
    rw [hc] at h
    exact h
  have hst : startsOf st3.trace = startsOf st.trace := by
    rw [htr, startsOf_append, startsOf_single]
    simp
  have hsp : stopsOf st3.trace = stopsOf st.trace ++ [serviceName app] := by
    rw [htr, stopsOf_append, stopsOf_single]
  by_cases hr : r3 = Res.ok
  · rw [if_pos hr]
    dsimp only
    exact ⟨hst, hsp⟩
  · rw [if_neg hr]
    by_cases hrt : r3 = Res.timeoutFail
    · rw [if_pos hrt]
      rcases hk1 : callOp o (notifyObs st3) (Op.killU (serviceName app) "TERM") with ⟨stk1, rk1⟩
      have htr1 : stk1.trace = st3.trace ++ [(Op.killU (serviceName app) "TERM",
          o (notifyObs st3).k (Op.killU (serviceName app) "TERM"))] := by
        have h := callOp_trace o (notifyObs st3) (Op.killU (serviceName app) "TERM")
        rw [hk1] at h
        exact h
      rcases hk2 : callOp o stk1 (Op.killU (serviceName app) "KILL") with ⟨stk2, rk2⟩
      have htr2 : stk2.trace = stk1.trace ++ [(Op.killU (serviceName app) "KILL",
          o stk1.k (Op.killU (serviceName app) "KILL"))] := by
        have h := callOp_trace o stk1 (Op.killU (serviceName app) "KILL")
        rw [hk2] at h
        exact h
      constructor
      · show startsOf stk2.trace = startsOf st.trace
        rw [htr2, startsOf_append, htr1, startsOf_append, startsOf_single, startsOf_single]
        simpa using hst
      · show stopsOf stk2.trace = stopsOf st.trace ++ [serviceName app]
        rw [htr2, stopsOf_append, htr1, stopsOf_append, stopsOf_single, stopsOf_single]
        simpa using hsp
    · rw [if_neg hrt]
      dsimp only
      exact ⟨hst, hsp⟩

/-- Running the deferred cleanups over plain services stops exactly
their service units, in the order given, and starts nothing. -/
theorem startRollbackList_plain (o : Oracle) :
    ∀ (pl : List AppInfo) (st : SysSt),
      (∀ a ∈ pl, a.sockets = [] ∧ a.timer = none) →
      startsOf (startRollbackList o pl st).trace = startsOf st.trace
      ∧ stopsOf (startRollbackList o pl st).trace
          = stopsOf st.trace ++ pl.map serviceName := by
  intro pl
  induction pl with
  | nil => intro st _; exact ⟨rfl, by simp [startRollbackList]⟩
  | cons app rest ih =>
    intro st h
    obtain ⟨h2, h3⟩ := h app (List.mem_cons_self app rest)
    rw [startRollbackList]
    obtain ⟨p1, p2⟩ := startRollbackApp_plain o st app h2 h3
    obtain ⟨q1, q2⟩ := ih (startRollbackApp o st app)
      (fun a ha => h a (List.mem_cons_of_mem app ha))
    constructor
    · exact q1.trans p1
    · rw [q2, p2, List.append_assoc]
      rfl

/-- C5: for an explicit ordered list of service-kind applications
with no sockets and no timers, all reported enabled by the manager
(queries succeeding): the `Start` calls for their plain service units
occur exactly in list order, one completed call before the next
begins, each in its own facade call (the trace records one `startU`
per unit, in order, never a batch); on success every unit is started
and nothing is stopped; and a `Start` failure returns exactly that
error after the deferred compensating stop has been attempted for
every registered application (all of them, in reverse order). -/
theorem c5_startServices_order (o : Oracle) (apps : List AppInfo) (st0 : SysSt)
    (happs : ∀ a ∈ apps, a.isService = true ∧ a.sockets = [] ∧ a.timer = none)
    (henab : ∀ a ∈ apps, serviceName a ∈ st0.enabledUnits)
    (hq : ∀ k u, o k (Op.isEnabledU u) = Res.ok) :
    ((startServices o apps st0).2 = none
      → startsOf ((startServices o apps st0).1).trace
          = startsOf st0.trace ++ apps.map serviceName
        ∧ stopsOf ((startServices o apps st0).1).trace = stopsOf st0.trace)
    ∧ (∀ e, (startServices o apps st0).2 = some e
      → ∃ i, i < apps.length
          ∧ e = SvcErr.startFail ((apps.map serviceName).getD i "")
          ∧ startsOf ((startServices o apps st0).1).trace
              = startsOf st0.trace ++ (apps.map serviceName).take (i + 1)
          ∧ stopsOf ((startServices o apps st0).1).trace
              = stopsOf st0.trace ++ (apps.map serviceName).reverse) := by
  obtain ⟨l1, l2, l3, l4, l5, l6⟩ := startLoop_plain o hq apps ⟨st0, [], []⟩ happs henab
  rcases hl : startLoop o apps ⟨st0, [], []⟩ with ⟨acc, e⟩
  rw [hl] at l1 l2 l3 l4 l5 l6
  have he : e = none := l1
  subst he
  have l2' : acc.processed = apps := by simpa using l2
  have l3' : acc.services = apps.map serviceName := by simpa using l3
  have l5' : startsOf acc.st.trace = startsOf st0.trace := l5
  have l6' : stopsOf acc.st.trace = stopsOf st0.trace := l6
  obtain ⟨sn, se⟩ := startSecond_spec o acc.services acc.st
  rcases hs : startSecond o acc.services acc.st with ⟨st1, e2⟩
  rw [hs] at sn se
  cases e2 with
  | none =>
    have hsvc : startServices o apps st0 = (st1, none) := by
      unfold startServices
      rw [hl]
      dsimp only
      rw [hs]
    rw [hsvc]
    constructor
    · intro _
      obtain ⟨s1, s2⟩ := sn rfl
      have s1' : startsOf st1.trace = startsOf acc.st.trace ++ acc.services := s1
      have s2' : stopsOf st1.trace = stopsOf acc.st.trace := s2
      constructor
      · show startsOf st1.trace = _
        rw [s1', l5', l3']
      · show stopsOf st1.trace = _
        rw [s2', l6']
    · intro e he
      exact absurd he (by simp)
  | some e0 =>
    have hsvc : startServices o apps st0 = (startRollback o st1 acc.processed, some e0) := by
      unfold startServices
      rw [hl]
      dsimp only
      rw [hs]
    rw [hsvc]
    constructor
    · intro h
      exact absurd h (by simp)
    · intro e he
      have he0 : e = e0 := (Option.some.inj he).symm
      subst he0
      obtain ⟨i, hi, he', hss, hsp⟩ := se e rfl
      have hss' : startsOf st1.trace = startsOf acc.st.trace ++ acc.services.take (i + 1) :=
        hss
      have hsp' : stopsOf st1.trace = stopsOf acc.st.trace := hsp
      have hplain : ∀ a ∈ acc.processed.reverse, a.sockets = [] ∧ a.timer = none := by
        intro a ha
        have ha' : a ∈ apps := by
          rw [← l2']
          exact List.mem_reverse.1 ha
        exact ⟨(happs a ha').2.1, (happs a ha').2.2⟩
      obtain ⟨r1, r2⟩ := startRollbackList_plain o acc.processed.reverse st1 hplain
      have hlen : i < apps.length := by
        have : acc.services.length = apps.length := by rw [l3']; simp
        rw [this] at hi
        exact hi
      refine ⟨i, hlen, ?_, ?_, ?_⟩
      · rw [← l3']
        exact he'
      · show startsOf (startRollback o st1 acc.processed).trace = _
        unfold startRollback
        rw [r1, hss', l5', l3']
      · show stopsOf (startRollback o st1 acc.processed).trace = _
        unfold startRollback
        rw [r2, hsp', l6', l2', ← List.map_reverse]

/-- Witness for C5: three plain enabled services, all calls
succeeding. -/
theorem c5_witness :
    ((startServices oAllOk [appA, appB, appC] stEnabledABC).2 = none
      → startsOf ((startServices oAllOk [appA, appB, appC] stEnabledABC).1).trace
          = startsOf stEnabledABC.trace ++ [appA, appB, appC].map serviceName
        ∧ stopsOf ((startServices oAllOk [appA, appB, appC] stEnabledABC).1).trace
            = stopsOf stEnabledABC.trace)
    ∧ (∀ e, (startServices oAllOk [appA, appB, appC] stEnabledABC).2 = some e
      → ∃ i, i < ([appA, appB, appC] : List AppInfo).length
          ∧ e = SvcErr.startFail (([appA, appB, appC].map serviceName).getD i "")
          ∧ startsOf ((startServices oAllOk [appA, appB, appC] stEnabledABC).1).trace
              = startsOf stEnabledABC.trace
                ++ ([appA, appB, appC].map serviceName).take (i + 1)
          ∧ stopsOf ((startServices oAllOk [appA, appB, appC] stEnabledABC).1).trace
              = stopsOf stEnabledABC.trace ++ ([appA, appB, appC].map serviceName).reverse) :=
  c5_startServices_order oAllOk [appA, appB, appC] stEnabledABC
    (by decide) (by decide) (fun _ _ => rfl)

end SnapdWrappers
